import Mathlib

/-!
# User/photo REST API (`main.go`): a shallow embedding

The Go program is a set of gin handlers over a gorm-backed relational store.
Each handler is embedded as a pure function from the request, the host
conditions of that request (environment variable, clock, randomness) and the
store to an `Outcome`: the reply written, the store afterwards and the list of
library calls that were reached, in order.

Everything the handlers call in libraries is a field of `Env`
(`govalidator.IsEmail`, `bcrypt`, `jwt.Parse`, gin's JSON binding), so a
theorem quantified over `Env` holds for every behaviour of those libraries.
The relational store is an explicit table model (`DB`), written down next to
the store operations below.
-/

namespace Api

/-! ## Data model (`main.go` lines 86-122) -/

/-- Instants of `time.Time`; `0` stands for Go's zero time. -/
abbrev Time := Nat

/-- The embedded `gorm.Model` (lines 87 and 117): primary key and the three
timestamps. `DeletedAt` is a `*time.Time`; `none` is the nil pointer. None of
the four fields carries a `json` tag, so the JSON binding fills them from the
keys `ID`, `CreatedAt`, `UpdatedAt`, `DeletedAt` when a body supplies them. -/
structure Model where
  ID : Nat := 0
  CreatedAt : Time := 0
  UpdatedAt : Time := 0
  DeletedAt : Option Time := none
deriving DecidableEq, Repr

/-- The `Photo` struct, lines 116-122. -/
structure Photo extends Model where
  Title : String := ""
  Caption : String := ""
  PhotoURL : String := ""
  UserID : Nat := 0
deriving DecidableEq, Repr

/-- The `user` struct, lines 86-92. -/
structure user extends Model where
  Username : String := ""
  Email : String := ""
  Password : String := ""
  Photo : List Photo := []
deriving DecidableEq, Repr

/-- A table of the store: its rows (soft-deleted ones included, since no
handler ever removes a row) and the next auto-increment value. -/
structure Table (α : Type) where
  rows : List α := []
  nextID : Nat := 1
deriving DecidableEq, Repr

/-- The store behind the global `db` handle (lines 16-18, 42-52): the two tables
that `AutoMigrate` creates. -/
structure DB where
  users : Table user := {}
  photos : Table Photo := {}
deriving DecidableEq, Repr

/-- The store right after `connectDB` on a fresh schema. -/
def DB.empty : DB := {}

/-! ## Library calls and requests -/

/-- What `jwt.Parse` hands back at line 71: the `Valid` flag of the token and
whether `err` is non-nil. -/
structure Token where
  Valid : Bool
  err : Bool
deriving DecidableEq, Repr

/-- The library functions called by the handlers. -/
structure Env where
  /-- `govalidator.IsEmail` (line 95). -/
  IsEmail : String → Bool
  /-- `bcrypt.GenerateFromPassword` at `bcrypt.DefaultCost` (line 107); the first
  argument is the randomness drawn for the salt. -/
  GenerateFromPassword : Nat → String → Except String String
  /-- `bcrypt.CompareHashAndPassword` (line 163): `true` when it returns nil. -/
  CompareHashAndPassword : String → String → Bool
  /-- `jwt.Parse` with the key function of lines 71-73: token string, then secret. -/
  Parse : String → String → Token
  /-- `c.ShouldBindJSON` into a `user` (lines 127, 152, 174). -/
  bindUser : String → Except String user
  /-- `c.ShouldBindJSON` into a `Photo` (lines 199, 225). -/
  bindPhoto : String → Except String Photo
  /-- The backend's reading of the path parameter in `id = ?`: the one row id
  the string compares equal to, or `none` when the statement is rejected. -/
  whereID : String → Option Nat
  /-- The save of a user's `Photo` association that gorm runs after writing the
  user row: photos table, owner id, submitted photos. -/
  saveAssociations : Table Photo → Nat → List Photo → Except String (Table Photo)

/-- What a handler reads from `*gin.Context`. -/
structure Request where
  Method : String := "GET"
  /-- The registered route pattern the router matched. -/
  FullPath : String := "/photo"
  /-- The value of the route's path parameter (`c.Param`). -/
  Param : String := ""
  /-- The value of `c.Request.Header.Get("Authorization")`. -/
  Authorization : String := ""
  Body : String := ""
deriving DecidableEq, Repr

/-- Conditions of the process at the time of one request. -/
structure Host where
  /-- The value of `os.Getenv("JWT_SECRET_KEY")`. -/
  JWT_SECRET_KEY : String := ""
  /-- The clock reading gorm uses for timestamps. -/
  Now : Time := 0
  /-- The randomness bcrypt draws for a salt. -/
  Rand : Nat := 0
deriving DecidableEq, Repr

/-- The document written to the client: the three JSON shapes of `c.JSON` in
`main.go`, and the plain text gin writes by itself. A `[]Photo` is `none` when
it is Go's nil slice, which is written as JSON `null`, and `some` of its
elements otherwise. -/
inductive Body where
  | error (msg : String)
  | message (msg : String)
  | photos (list : Option (List Photo))
  | text (msg : String)
deriving DecidableEq, Repr

/-- Status code and body written by `c.JSON`. -/
structure Reply where
  status : Nat
  body : Body
deriving DecidableEq, Repr

/-- The library calls a handler reaches, in the order it reaches them. -/
inductive Call where
  | Getenv (name : String)
  | Parse (tokenString secretKey : String)
  | GenerateFromPassword (password : String)
  | CompareHashAndPassword (hash password : String)
  | CreateUser (value : user)
  | FirstUser (email : String)
  | UpdatesUser (id : String) (value : user)
  | DeleteUser (id : String)
  | CreatePhoto (value : Photo)
  | FindPhoto
  | UpdatesPhoto (id : String) (value : Photo)
  | DeletePhoto (id : String)
deriving DecidableEq, Repr

/-- What one handler run leaves behind. -/
structure Outcome where
  db : DB
  reply : Reply
  calls : List Call
deriving DecidableEq, Repr

/-- `http.StatusOK`. -/
abbrev StatusOK : Nat := 200
/-- `http.StatusBadRequest`. -/
abbrev StatusBadRequest : Nat := 400
/-- `http.StatusUnauthorized`. -/
abbrev StatusUnauthorized : Nat := 401
/-- `http.StatusNotFound`. -/
abbrev StatusNotFound : Nat := 404
/-- `http.StatusInternalServerError`. -/
abbrev StatusInternalServerError : Nat := 500

/-! ## The relational store

gorm and the MySQL backend are not part of `main.go`. The operations below are
the statements the handlers issue through gorm, on tables held as lists of
rows: every statement is scoped to live rows, `Create` and `Updates` maintain
the timestamps, and `Delete` is a soft delete. The store is taken to be
reachable: a statement fails only for the reasons written in its definition.
Column comparison is string equality, and limits of column types are not
modelled. -/

/-- A row is live when its deletion timestamp is unset: gorm adds
`deleted_at IS NULL` to every query, update and delete. -/
def Model.live (m : Model) : Bool := m.DeletedAt.isNone

/-- The `gorm.Model` part of a row written by `Create`: the key is the
auto-increment value unless the value carries one, and blank creation and
update timestamps are set to the clock. A supplied `DeletedAt` is inserted
as it is. -/
def Model.created (now : Time) (nextID : Nat) (m : Model) : Model :=
  { ID := if m.ID = 0 then nextID else m.ID
    CreatedAt := if m.CreatedAt = 0 then now else m.CreatedAt
    UpdatedAt := if m.UpdatedAt = 0 then now else m.UpdatedAt
    DeletedAt := m.DeletedAt }

/-- The `gorm.Model` part of a row after `Updates` with value `v`: non-blank
fields of `v` overwrite, and `updated_at` is set to the clock. -/
def Model.updated (now : Time) (v r : Model) : Model :=
  { ID := if v.ID = 0 then r.ID else v.ID
    CreatedAt := if v.CreatedAt = 0 then r.CreatedAt else v.CreatedAt
    UpdatedAt := now
    DeletedAt := if v.DeletedAt.isSome then v.DeletedAt else r.DeletedAt }

/-- The rows an `Updates` statement reaches: live rows whose key equals the
path parameter and, when the value carries a key of its own, that key too
(gorm copies the value's key into the statement's condition). -/
def Model.selected (id : Nat) (v r : Model) : Bool :=
  r.live && decide (r.ID = id) && (decide (v.ID = 0) || decide (r.ID = v.ID))

/-- Whether no `gorm.Model` field of the value is set. -/
def Model.blank (v : Model) : Bool :=
  decide (v.ID = 0) && decide (v.CreatedAt = 0) && decide (v.UpdatedAt = 0) && v.DeletedAt.isNone

/-- The row a soft delete leaves: live rows with the key get the clock as
deletion timestamp, other rows are not touched. -/
def Model.deleted (now : Time) (id : Nat) (r : Model) : Model :=
  if r.live && decide (r.ID = id) then { r with DeletedAt := some now } else r

/-- Whether `Updates` has a column to write for a `user` value: some field
other than the association is non-blank. Without one gorm issues no statement. -/
def user.hasUpdate (v : user) : Bool :=
  !v.toModel.blank || decide (v.Username ≠ "") || decide (v.Email ≠ "") || decide (v.Password ≠ "")

/-- Whether `Updates` has a column to write for a `Photo` value. -/
def Photo.hasUpdate (v : Photo) : Bool :=
  !v.toModel.blank || decide (v.Title ≠ "") || decide (v.Caption ≠ "")
    || decide (v.PhotoURL ≠ "") || decide (v.UserID ≠ 0)

/-- A `user` row after `Updates` with value `v`: field merge. -/
def user.updated (now : Time) (v r : user) : user :=
  { toModel := Model.updated now v.toModel r.toModel
    Username := if v.Username = "" then r.Username else v.Username
    Email := if v.Email = "" then r.Email else v.Email
    Password := if v.Password = "" then r.Password else v.Password
    Photo := r.Photo }

/-- A `Photo` row after `Updates` with value `v`: field merge. -/
def Photo.updated (now : Time) (v r : Photo) : Photo :=
  { toModel := Model.updated now v.toModel r.toModel
    Title := if v.Title = "" then r.Title else v.Title
    Caption := if v.Caption = "" then r.Caption else v.Caption
    PhotoURL := if v.PhotoURL = "" then r.PhotoURL else v.PhotoURL
    UserID := if v.UserID = 0 then r.UserID else v.UserID }

/-- Modelled from the spec: `db.Create(&newUser)` on the store of sections 3
and 4.3 (id auto-assigned and unique, email unique, timestamps). The insert
fails on a duplicate key or a duplicate email; the row holds the columns of
the value, and a non-empty `Photo` association is saved afterwards in the
same transaction. -/
def DB.CreateUser (env : Env) (now : Time) (db : DB) (value : user) : Except String DB :=
  let m := Model.created now db.users.nextID value.toModel
  let row : user := { value with toModel := m, Photo := [] }
  if db.users.rows.any (fun r => decide (r.ID = m.ID)) then
    .error "Duplicate entry for key PRIMARY"
  else if db.users.rows.any (fun r => decide (r.Email = value.Email)) then
    .error "Duplicate entry for key email"
  else
    let users : Table user :=
      { rows := db.users.rows ++ [row], nextID := max db.users.nextID (m.ID + 1) }
    if value.Photo = [] then .ok { db with users := users }
    else
      match env.saveAssociations db.photos m.ID value.Photo with
      | .error e => .error e
      | .ok photos => .ok { users := users, photos := photos }

/-- The row with the least key among `rows`, as `ORDER BY id LIMIT 1`. -/
def firstByID : List user → Option user
  | [] => none
  | r :: rs =>
    match firstByID rs with
    | none => some r
    | some m => if r.ID ≤ m.ID then some r else some m

/-- Modelled from the spec: `db.Where("email = ?", email).First(&user)`, the
find-by-field of section 4.3: the live row with that email and the least key,
or the record-not-found error. -/
def DB.FirstUser (db : DB) (email : String) : Except String user :=
  match firstByID (db.users.rows.filter (fun r => r.live && decide (r.Email = email))) with
  | none => .error "record not found"
  | some r => .ok r

/-- Modelled from the spec: `db.Model(&user{}).Where("id = ?", id).Updates(value)`,
the update-by-id of section 4.3. With no column to write nothing is issued.
Otherwise the selected rows get the field merge; the statement fails when the
path parameter is rejected or a written email would no longer be unique, and a
non-empty `Photo` association is saved afterwards in the same transaction. -/
def DB.UpdatesUser (env : Env) (now : Time) (db : DB) (id : String) (value : user) :
    Except String DB :=
  if !value.hasUpdate then .ok db
  else
    match env.whereID id with
    | none => .error "Truncated incorrect value"
    | some n =>
      let hit := fun (r : user) => Model.selected n value.toModel r.toModel
      let rows := db.users.rows.map (fun r => if hit r then user.updated now value r else r)
      if decide (value.Email ≠ "") && db.users.rows.any hit
          && decide (1 < (rows.filter (fun r => decide (r.Email = value.Email))).length) then
        .error "Duplicate entry for key email"
      else
        let users : Table user := { db.users with rows := rows }
        if value.Photo = [] then .ok { db with users := users }
        else
          match env.saveAssociations db.photos value.ID value.Photo with
          | .error e => .error e
          | .ok photos => .ok { users := users, photos := photos }

/-- Modelled from the spec: `db.Where("id = ?", id).Delete(&user{})`, the
delete-by-id (soft delete) of section 4.3: live rows with that key get a
deletion timestamp; the statement fails only when the path parameter is
rejected. -/
def DB.DeleteUser (env : Env) (now : Time) (db : DB) (id : String) : Except String DB :=
  match env.whereID id with
  | none => .error "Truncated incorrect value"
  | some n =>
    .ok { db with users := { db.users with
            rows := db.users.rows.map (fun r => { r with toModel := Model.deleted now n r.toModel }) } }

/-- Modelled from the spec: `db.Create(&newPhoto)` on the store of sections 3
and 4.3: the insert fails on a duplicate key; the row holds the value with its
key and timestamps filled in. -/
def DB.CreatePhoto (now : Time) (db : DB) (value : Photo) : Except String DB :=
  let m := Model.created now db.photos.nextID value.toModel
  let row : Photo := { value with toModel := m }
  if db.photos.rows.any (fun r => decide (r.ID = m.ID)) then
    .error "Duplicate entry for key PRIMARY"
  else
    .ok { db with photos :=
            { rows := db.photos.rows ++ [row], nextID := max db.photos.nextID (m.ID + 1) } }

/-- Modelled from the spec: `db.Find(&photo)`, the find-all of section 4.3: the
destination slice is set to the live rows of the photos table; gorm makes it
an empty slice, not a nil one, before it reads the rows. -/
def DB.FindPhoto (db : DB) (_photo : Option (List Photo)) :
    Except String (Option (List Photo)) :=
  .ok (some (db.photos.rows.filter (fun r => r.live)))

/-- Modelled from the spec: `db.Model(&Photo{}).Where("id = ?", id).Updates(value)`,
the update-by-id of section 4.3 on photos. -/
def DB.UpdatesPhoto (env : Env) (now : Time) (db : DB) (id : String) (value : Photo) :
    Except String DB :=
  if !value.hasUpdate then .ok db
  else
    match env.whereID id with
    | none => .error "Truncated incorrect value"
    | some n =>
      let hit := fun (r : Photo) => Model.selected n value.toModel r.toModel
      .ok { db with photos := { db.photos with
              rows := db.photos.rows.map (fun r => if hit r then Photo.updated now value r else r) } }

/-- Modelled from the spec: `db.Where("id = ?", id).Delete(&Photo{})`, the
delete-by-id (soft delete) of section 4.3 on photos. -/
def DB.DeletePhoto (env : Env) (now : Time) (db : DB) (id : String) : Except String DB :=
  match env.whereID id with
  | none => .error "Truncated incorrect value"
  | some n =>
    .ok { db with photos := { db.photos with
            rows := db.photos.rows.map (fun r => { r with toModel := Model.deleted now n r.toModel }) } }

/-! ## Token check (`main.go` lines 55-83) -/

/-- What the middleware does with the request: `abort` is `c.JSON` followed by
`c.Abort()`, `next` is `c.Next()` with nothing written. -/
inductive Passage where
  | abort (reply : Reply)
  | next
deriving DecidableEq, Repr

/-- The handler returned by `authMiddleware()`, lines 56-82. -/
def authMiddleware (env : Env) (host : Host) (c : Request) : Passage × List Call :=
  let tokenString := c.Authorization
  if tokenString = "" then
    (.abort ⟨StatusUnauthorized, .error "Authorization header required"⟩, [])
  else
    let secretKey := host.JWT_SECRET_KEY
    if secretKey = "" then
      (.abort ⟨StatusInternalServerError, .error "Internal server error"⟩,
        [.Getenv "JWT_SECRET_KEY"])
    else
      let token := env.Parse tokenString secretKey
      if token.err || !token.Valid then
        (.abort ⟨StatusUnauthorized, .error "Invalid token"⟩,
          [.Getenv "JWT_SECRET_KEY", .Parse tokenString secretKey])
      else
        (.next, [.Getenv "JWT_SECRET_KEY", .Parse tokenString secretKey])

/-! ## User methods (`main.go` lines 94-113) -/

/-- The method `(u *user) Validate`, lines 94-104. Go's `len` of a string is
its length in bytes. -/
def user.Validate (env : Env) (u : user) : Except String Unit :=
  if !env.IsEmail u.Email then
    .error "Invalid email format"
  else if u.Password.utf8ByteSize < 6 then
    .error "Password must be at least 6 characters long"
  else
    .ok ()

/-- The method `(u *user) SetPassword`, lines 106-113: the receiver with its
password replaced by the hash, or the hasher's error. -/
def user.SetPassword (env : Env) (rand : Nat) (u : user) (password : String) :
    Except String user :=
  match env.GenerateFromPassword rand password with
  | .error err => .error err
  | .ok hashedPassword => .ok { u with Password := hashedPassword }

/-! ## Handlers (`main.go` lines 125-246) -/

/-- The handler `registerUser`, lines 125-148. -/
def registerUser (env : Env) (host : Host) (c : Request) (db : DB) : Outcome :=
  match env.bindUser c.Body with
  | .error err => ⟨db, ⟨StatusBadRequest, .error err⟩, []⟩
  | .ok newUser =>
    match newUser.Validate env with
    | .error err => ⟨db, ⟨StatusBadRequest, .error err⟩, []⟩
    | .ok _ =>
      match newUser.SetPassword env host.Rand newUser.Password with
      | .error _ =>
        ⟨db, ⟨StatusInternalServerError, .error "Failed to set password"⟩,
          [.GenerateFromPassword newUser.Password]⟩
      | .ok hashed =>
        match db.CreateUser env host.Now hashed with
        | .error _ =>
          ⟨db, ⟨StatusInternalServerError, .error "Failed to register user"⟩,
            [.GenerateFromPassword newUser.Password, .CreateUser hashed]⟩
        | .ok db1 =>
          ⟨db1, ⟨StatusOK, .message "User registered successfully"⟩,
            [.GenerateFromPassword newUser.Password, .CreateUser hashed]⟩

/-- The handler `loginUser`, lines 150-169. -/
def loginUser (env : Env) (_host : Host) (c : Request) (db : DB) : Outcome :=
  match env.bindUser c.Body with
  | .error _ => ⟨db, ⟨StatusBadRequest, .error "Invalid request data"⟩, []⟩
  | .ok loginDetails =>
    match db.FirstUser loginDetails.Email with
    | .error _ =>
      ⟨db, ⟨StatusUnauthorized, .error "User not found"⟩, [.FirstUser loginDetails.Email]⟩
    | .ok user =>
      if !env.CompareHashAndPassword user.Password loginDetails.Password then
        ⟨db, ⟨StatusUnauthorized, .error "Invalid password"⟩,
          [.FirstUser loginDetails.Email,
            .CompareHashAndPassword user.Password loginDetails.Password]⟩
      else
        ⟨db, ⟨StatusOK, .message "Login successful"⟩,
          [.FirstUser loginDetails.Email,
            .CompareHashAndPassword user.Password loginDetails.Password]⟩

/-- The handler `updateUser`, lines 171-185. -/
def updateUser (env : Env) (host : Host) (c : Request) (db : DB) : Outcome :=
  let userId := c.Param
  match env.bindUser c.Body with
  | .error err => ⟨db, ⟨StatusBadRequest, .error err⟩, []⟩
  | .ok updatedUser =>
    match db.UpdatesUser env host.Now userId updatedUser with
    | .error _ =>
      ⟨db, ⟨StatusInternalServerError, .error "Failed to update user"⟩,
        [.UpdatesUser userId updatedUser]⟩
    | .ok db1 =>
      ⟨db1, ⟨StatusOK, .message "User updated successfully"⟩, [.UpdatesUser userId updatedUser]⟩

/-- The handler `deleteUser`, lines 187-195. -/
def deleteUser (env : Env) (host : Host) (c : Request) (db : DB) : Outcome :=
  let userId := c.Param
  match db.DeleteUser env host.Now userId with
  | .error _ =>
    ⟨db, ⟨StatusInternalServerError, .error "Failed to delete user"⟩, [.DeleteUser userId]⟩
  | .ok db1 => ⟨db1, ⟨StatusOK, .message "User deleted successfully"⟩, [.DeleteUser userId]⟩

/-- The handler `uploadPhoto`, lines 197-210. -/
def uploadPhoto (env : Env) (host : Host) (c : Request) (db : DB) : Outcome :=
  match env.bindPhoto c.Body with
  | .error err => ⟨db, ⟨StatusBadRequest, .error err⟩, []⟩
  | .ok newPhoto =>
    match db.CreatePhoto host.Now newPhoto with
    | .error _ =>
      ⟨db, ⟨StatusInternalServerError, .error "Failed to upload photo"⟩, [.CreatePhoto newPhoto]⟩
    | .ok db1 => ⟨db1, ⟨StatusOK, .message "Photo uploaded successfully"⟩, [.CreatePhoto newPhoto]⟩

/-- The handler `getPhoto`, lines 212-220. -/
def getPhoto (_env : Env) (_host : Host) (_c : Request) (db : DB) : Outcome :=
  let photo : Option (List Photo) := none
  match db.FindPhoto photo with
  | .error _ =>
    ⟨db, ⟨StatusInternalServerError, .error "Failed to retrieve photo"⟩, [.FindPhoto]⟩
  | .ok photo => ⟨db, ⟨StatusOK, .photos photo⟩, [.FindPhoto]⟩

/-- The handler `updatePhoto`, lines 222-236. -/
def updatePhoto (env : Env) (host : Host) (c : Request) (db : DB) : Outcome :=
  let photoId := c.Param
  match env.bindPhoto c.Body with
  | .error err => ⟨db, ⟨StatusBadRequest, .error err⟩, []⟩
  | .ok updatedPhoto =>
    match db.UpdatesPhoto env host.Now photoId updatedPhoto with
    | .error _ =>
      ⟨db, ⟨StatusInternalServerError, .error "Failed to update photo"⟩,
        [.UpdatesPhoto photoId updatedPhoto]⟩
    | .ok db1 =>
      ⟨db1, ⟨StatusOK, .message "Photo updated successfully"⟩,
        [.UpdatesPhoto photoId updatedPhoto]⟩

/-- The handler `deletePhoto`, lines 238-246. -/
def deletePhoto (env : Env) (host : Host) (c : Request) (db : DB) : Outcome :=
  let photoId := c.Param
  match db.DeletePhoto env host.Now photoId with
  | .error _ =>
    ⟨db, ⟨StatusInternalServerError, .error "Failed to delete photo"⟩, [.DeletePhoto photoId]⟩
  | .ok db1 => ⟨db1, ⟨StatusOK, .message "Photo deleted successfully"⟩, [.DeletePhoto photoId]⟩

/-! ## Route table (`main.go` lines 27-35) -/

/-- The functions registered on routes. -/
inductive HandlerFunc where
  | authMiddleware
  | registerUser
  | loginUser
  | updateUser
  | deleteUser
  | uploadPhoto
  | getPhoto
  | updatePhoto
  | deletePhoto
deriving DecidableEq, Repr

/-- One registration: method, path pattern and the handler chain in order. -/
structure RouteInfo where
  Method : String
  Path : String
  Handlers : List HandlerFunc
deriving DecidableEq, Repr

/-- The eight registrations of `main`, lines 27-35, in source order. -/
def routes : List RouteInfo :=
  [ ⟨"POST", "/user/register", [.registerUser]⟩,
    ⟨"POST", "/user/login", [.loginUser]⟩,
    ⟨"PUT", "/user/:userId", [.updateUser]⟩,
    ⟨"DELETE", "/user/:userId", [.deleteUser]⟩,
    ⟨"POST", "/photo", [.authMiddleware, .uploadPhoto]⟩,
    ⟨"GET", "/photo", [.getPhoto]⟩,
    ⟨"PUT", "/photo/:photoId", [.authMiddleware, .updatePhoto]⟩,
    ⟨"DELETE", "/photo/:photoId", [.authMiddleware, .deletePhoto]⟩ ]

/-- One function of a chain run on the request: the outcome so far extended by
what the function did, and whether the chain was aborted. A handler's reply
replaces the pending one; its calls are appended. -/
def execHandler (env : Env) (host : Host) (c : Request) (h : HandlerFunc) (o : Outcome) :
    Outcome × Bool :=
  let after := fun (r : Outcome) => (({ r with calls := o.calls ++ r.calls } : Outcome), false)
  match h with
  | .authMiddleware =>
    match authMiddleware env host c with
    | (.abort reply, calls) => ({ o with reply := reply, calls := o.calls ++ calls }, true)
    | (.next, calls) => ({ o with calls := o.calls ++ calls }, false)
  | .registerUser => after (registerUser env host c o.db)
  | .loginUser => after (loginUser env host c o.db)
  | .updateUser => after (updateUser env host c o.db)
  | .deleteUser => after (deleteUser env host c o.db)
  | .uploadPhoto => after (uploadPhoto env host c o.db)
  | .getPhoto => after (getPhoto env host c o.db)
  | .updatePhoto => after (updatePhoto env host c o.db)
  | .deletePhoto => after (deletePhoto env host c o.db)

/-- The chain of a route run in order, as gin does: each function runs unless an
earlier one aborted. -/
def runHandlers (env : Env) (host : Host) (c : Request) : List HandlerFunc → Outcome → Outcome
  | [], o => o
  | h :: rest, o =>
    match execHandler env host c h o with
    | (o1, true) => o1
    | (o1, false) => runHandlers env host c rest o1

/-- The route registered for a method and path pattern, if any. -/
def findRoute (method path : String) : Option RouteInfo :=
  routes.find? (fun r => decide (r.Method = method) && decide (r.Path = path))

/-- One request served by the engine built in `main`: the chain of the matched
route, or gin's 404 when no route is registered. The logger and the recovery
handler that `gin.Default()` puts ahead of every chain write no reply of their
own on these paths and are left out. -/
def serve (env : Env) (host : Host) (c : Request) (db : DB) : Outcome :=
  match findRoute c.Method c.FullPath with
  | none => ⟨db, ⟨StatusNotFound, .text "404 page not found"⟩, []⟩
  | some r => runHandlers env host c r.Handlers ⟨db, ⟨StatusOK, .text ""⟩, []⟩

/-! ## A concrete environment

Small stand-ins for the libraries, used to run the handlers on concrete
requests. -/

/-- Bodies the stand-in binding decodes into a `user`. -/
def demoBindUser : String → Except String user
  | "\x7b\"username\":\"alice\",\"email\":\"alice@example.com\",\"password\":\"secret1\"\x7d" =>
    .ok { Username := "alice", Email := "alice@example.com", Password := "secret1" }
  | "\x7b\"username\":\"eve\",\"email\":\"eve@example.com\",\"password\":\"ééé\"\x7d" =>
    .ok { Username := "eve", Email := "eve@example.com", Password := "ééé" }
  | "\x7b\"username\":\"bob\",\"email\":\"bob@example.com\",\"password\":\"secret2\",\"DeletedAt\":\"2020-01-01T00:00:00Z\"\x7d" =>
    .ok { Username := "bob", Email := "bob@example.com", Password := "secret2",
          DeletedAt := some 5 }
  | "\x7b\"email\":\"alice@example.com\",\"password\":\"secret1\"\x7d" =>
    .ok { Email := "alice@example.com", Password := "secret1" }
  | "\x7b\"email\":\"alice@example.com\",\"password\":\"wrong\"\x7d" =>
    .ok { Email := "alice@example.com", Password := "wrong" }
  | "\x7b\"email\":\"bob@example.com\",\"password\":\"secret2\"\x7d" =>
    .ok { Email := "bob@example.com", Password := "secret2" }
  | "\x7b\x7d" => .ok {}
  | "\x7b\"password\":\"plain\"\x7d" => .ok { Password := "plain" }
  | "\x7b\"username\":\"carol\"\x7d" => .ok { Username := "carol" }
  | "\x7b\"ID\":7,\"username\":\"carol\"\x7d" => .ok { ID := 7, Username := "carol" }
  | _ => .error "invalid character"

/-- Bodies the stand-in binding decodes into a `Photo`. -/
def demoBindPhoto : String → Except String Photo
  | "\x7b\"title\":\"t\",\"caption\":\"c\",\"photo_url\":\"u\",\"user_id\":1\x7d" =>
    .ok { Title := "t", Caption := "c", PhotoURL := "u", UserID := 1 }
  | "\x7b\"title\":\"t\",\"DeletedAt\":\"2020-01-01T00:00:00Z\"\x7d" =>
    .ok { Title := "t", DeletedAt := some 5 }
  | "\x7b\"caption\":\"d\"\x7d" => .ok { Caption := "d" }
  | _ => .error "invalid character"

/-- Path parameters the stand-in backend reads as a key. -/
def demoWhereID : String → Option Nat
  | "1" => some 1
  | "2" => some 2
  | "7" => some 7
  | _ => none

/-- The stand-in libraries: an email has an at-sign, a hash is the password
behind a fixed marker, a token is valid when it names the secret. -/
def demo : Env where
  IsEmail := fun s => s.data.contains '@'
  GenerateFromPassword := fun _ p => .ok ("$2a$10$" ++ p)
  CompareHashAndPassword := fun h p => decide (h = "$2a$10$" ++ p)
  Parse := fun t k => if t = "signed:" ++ k then ⟨true, false⟩ else ⟨false, true⟩
  bindUser := demoBindUser
  bindPhoto := demoBindPhoto
  whereID := demoWhereID
  saveAssociations := fun t _ _ => .ok t

/-- The first `n` bytes of `key` repeated without end; `rest` is what is left
of the copy being read. -/
def cycleTake (key : List UInt8) : Nat → List UInt8 → List UInt8
  | 0, _ => []
  | n + 1, [] =>
    match key with
    | [] => []
    | b :: bs => b :: cycleTake key n bs
  | n + 1, b :: bs => b :: cycleTake key n bs

/-- The key material bcrypt reads from a password: its bytes and a closing
zero byte, repeated, up to the 72 bytes of the cipher's key schedule. -/
def bcryptKey (password : String) : List UInt8 :=
  cycleTake (password.data.flatMap String.utf8EncodeChar ++ [0]) 72
    (password.data.flatMap String.utf8EncodeChar ++ [0])

/-- The text a stand-in hash is made of: a marker and the key bytes. -/
def bcryptText (password : String) : String :=
  "$2a$10$" ++ String.mk ((bcryptKey password).map (fun b => Char.ofNat b.toNat))

/-- A password of exactly 72 bytes. -/
def longPassword : String :=
  "correct horse battery staple correct horse battery staple correct horse!"

/-- The body of a registration with the 72-byte password. -/
def regLongBody : String :=
  "\x7b\"username\":\"dave\",\"email\":\"dave@example.com\",\"password\":\""
    ++ longPassword ++ "\"\x7d"

/-- The body of a login with the 72-byte password followed by one more byte. -/
def loginLongBody : String :=
  "\x7b\"email\":\"dave@example.com\",\"password\":\"" ++ longPassword ++ "x\"\x7d"

/-- Stand-in libraries with bcrypt's handling of the password bytes: hashing
refuses more than 72 bytes, and the comparison, which has no such check, sees
only the key material of `bcryptKey`. -/
def bcryptLike : Env :=
  { demo with
    GenerateFromPassword := fun _ p =>
      if 72 < p.utf8ByteSize then .error "bcrypt: password length exceeds 72 bytes"
      else .ok (bcryptText p)
    CompareHashAndPassword := fun h p => decide (h = bcryptText p)
    bindUser := fun s =>
      if s = regLongBody then
        .ok { Username := "dave", Email := "dave@example.com", Password := longPassword }
      else if s = loginLongBody then
        .ok { Email := "dave@example.com", Password := longPassword ++ "x" }
      else demoBindUser s }

/-! ## Vocabulary of the statements -/

/-- The hasher never hands back its input as the hash. -/
def Env.hashDiffers (env : Env) : Prop :=
  ∀ rand p h, env.GenerateFromPassword rand p = .ok h → h ≠ p

/-- The hasher accepts the password it hashed: comparing a hash made from `p`
with `p` succeeds. Nothing is asked of the comparison with another password. -/
def Env.completes (env : Env) : Prop :=
  ∀ rand p h, env.GenerateFromPassword rand p = .ok h → env.CompareHashAndPassword h p = true

/-- The token in the header fails verification against the secret: `jwt.Parse`
reports an error or a token that is not valid. -/
def Env.rejects (env : Env) (tokenString secretKey : String) : Prop :=
  (env.Parse tokenString secretKey).err = true ∨ (env.Parse tokenString secretKey).Valid = false

/-- The token in the header verifies against the secret. -/
def Env.accepts (env : Env) (tokenString secretKey : String) : Prop :=
  (env.Parse tokenString secretKey).err = false ∧ (env.Parse tokenString secretKey).Valid = true

/-- Method and pattern of the three routes registered with `authMiddleware()`. -/
def gatedRoutes : List (String × String) :=
  [("POST", "/photo"), ("PUT", "/photo/:photoId"), ("DELETE", "/photo/:photoId")]

/-- Method and pattern of the five routes registered with a handler alone. -/
def openRoutes : List (String × String) :=
  [("POST", "/user/register"), ("POST", "/user/login"), ("PUT", "/user/:userId"),
    ("DELETE", "/user/:userId"), ("GET", "/photo")]

/-- The handler of an open route. -/
def openHandler (env : Env) (host : Host) (c : Request) (db : DB) : Outcome :=
  if c.FullPath = "/user/register" then registerUser env host c db
  else if c.FullPath = "/user/login" then loginUser env host c db
  else if c.FullPath = "/photo" then getPhoto env host c db
  else if c.Method = "PUT" then updateUser env host c db
  else deleteUser env host c db

/-- The handler at the end of a gated route's chain. -/
def gatedHandler (env : Env) (host : Host) (c : Request) (db : DB) : Outcome :=
  if c.Method = "POST" then uploadPhoto env host c db
  else if c.Method = "PUT" then updatePhoto env host c db
  else deletePhoto env host c db

/-- The two calls the middleware makes before it lets a request through or
turns a token down. -/
def checkCalls (host : Host) (c : Request) : List Call :=
  [.Getenv "JWT_SECRET_KEY", .Parse c.Authorization host.JWT_SECRET_KEY]

/-- Requests served one after the other; the store after the last one. -/
def serveAll (env : Env) : List (Host × Request) → DB → DB
  | [], db => db
  | (host, c) :: rest, db => serveAll env rest (serve env host c db).db

/-- The request is an update or a delete of the user with key `uid`. -/
def touchesUser (env : Env) (uid : Nat) (c : Request) : Bool :=
  decide (c.FullPath = "/user/:userId")
    && (decide (c.Method = "PUT") || decide (c.Method = "DELETE"))
    && decide (env.whereID c.Param = some uid)

/-- The row `row` is in the users table and is the only row with its email. -/
def Registered (row : user) (db : DB) : Prop :=
  row ∈ db.users.rows ∧ ∀ r ∈ db.users.rows, r.Email = row.Email → r = row

/-- An `Updates` statement with value `v` and path parameter `id` reaches the
row with `gorm.Model` part `r`. -/
def Reaches (env : Env) (id : String) (hasUpdate : Bool) (v r : Model) : Prop :=
  hasUpdate = true ∧ r.live = true ∧ env.whereID id = some r.ID ∧ (v.ID = 0 ∨ v.ID = r.ID)

/-! ## Concrete requests -/

/-- `POST /user/register` for alice. -/
def regAlice : Request :=
  { Method := "POST", FullPath := "/user/register",
    Body := "\x7b\"username\":\"alice\",\"email\":\"alice@example.com\",\"password\":\"secret1\"\x7d" }

/-- `POST /user/register` with a password of three two-byte characters. -/
def regEve : Request :=
  { Method := "POST", FullPath := "/user/register",
    Body := "\x7b\"username\":\"eve\",\"email\":\"eve@example.com\",\"password\":\"ééé\"\x7d" }

/-- `POST /user/register` with a body that also sets `DeletedAt`. -/
def regBob : Request :=
  { Method := "POST", FullPath := "/user/register",
    Body := "\x7b\"username\":\"bob\",\"email\":\"bob@example.com\",\"password\":\"secret2\",\"DeletedAt\":\"2020-01-01T00:00:00Z\"\x7d" }

/-- `POST /user/register` with the 72-byte password. -/
def regLong : Request :=
  { Method := "POST", FullPath := "/user/register", Body := regLongBody }

/-- `POST /user/login` with the 72-byte password followed by one more byte. -/
def loginLong : Request :=
  { Method := "POST", FullPath := "/user/login", Body := loginLongBody }

/-- `POST /user/login` for alice with her password. -/
def loginAlice : Request :=
  { Method := "POST", FullPath := "/user/login",
    Body := "\x7b\"email\":\"alice@example.com\",\"password\":\"secret1\"\x7d" }

/-- `POST /user/login` for alice with another password. -/
def loginAliceWrong : Request :=
  { Method := "POST", FullPath := "/user/login",
    Body := "\x7b\"email\":\"alice@example.com\",\"password\":\"wrong\"\x7d" }

/-- `POST /user/login` for bob with his password. -/
def loginBob : Request :=
  { Method := "POST", FullPath := "/user/login",
    Body := "\x7b\"email\":\"bob@example.com\",\"password\":\"secret2\"\x7d" }

/-- `PUT /user/1` with only a password in the body. -/
def putPassword : Request :=
  { Method := "PUT", FullPath := "/user/:userId", Param := "1",
    Body := "\x7b\"password\":\"plain\"\x7d" }

/-- `PUT /user/1` with the empty object as body. -/
def putEmpty : Request :=
  { Method := "PUT", FullPath := "/user/:userId", Param := "1", Body := "\x7b\x7d" }

/-- `PUT /user/1` with only a username in the body. -/
def putUsername : Request :=
  { Method := "PUT", FullPath := "/user/:userId", Param := "1",
    Body := "\x7b\"username\":\"carol\"\x7d" }

/-- `PUT /user/1` with a username and a key of its own in the body. -/
def putUsernameID : Request :=
  { Method := "PUT", FullPath := "/user/:userId", Param := "1",
    Body := "\x7b\"ID\":7,\"username\":\"carol\"\x7d" }

/-- `DELETE /user/1`. -/
def delUser : Request :=
  { Method := "DELETE", FullPath := "/user/:userId", Param := "1" }

/-- `POST /photo` with the four documented fields. -/
def postPhoto : Request :=
  { Method := "POST", FullPath := "/photo", Authorization := "signed:k",
    Body := "\x7b\"title\":\"t\",\"caption\":\"c\",\"photo_url\":\"u\",\"user_id\":1\x7d" }

/-- `POST /photo` with a body that also sets `DeletedAt`. -/
def postPhotoDeleted : Request :=
  { Method := "POST", FullPath := "/photo", Authorization := "signed:k",
    Body := "\x7b\"title\":\"t\",\"DeletedAt\":\"2020-01-01T00:00:00Z\"\x7d" }

/-- `POST /photo` with a header that is no token and no secret configured. -/
def postPhotoGarbage : Request :=
  { Method := "POST", FullPath := "/photo", Authorization := "garbage",
    Body := "\x7b\"title\":\"t\",\"caption\":\"c\",\"photo_url\":\"u\",\"user_id\":1\x7d" }

/-- `PUT /photo/1` with only a caption in the body. -/
def putCaption : Request :=
  { Method := "PUT", FullPath := "/photo/:photoId", Param := "1", Authorization := "signed:k",
    Body := "\x7b\"caption\":\"d\"\x7d" }

/-- `DELETE /photo/1`. -/
def delPhoto : Request :=
  { Method := "DELETE", FullPath := "/photo/:photoId", Param := "1", Authorization := "signed:k" }

/-- `GET /photo`. -/
def getPhotos : Request := { Method := "GET", FullPath := "/photo" }

/-- A host with the secret `k` at clock reading 10. -/
def hostK : Host := { JWT_SECRET_KEY := "k", Now := 10 }

/-- The same host at clock reading 20. -/
def hostK20 : Host := { JWT_SECRET_KEY := "k", Now := 20 }

/-- A host with no secret configured. -/
def hostNoKey : Host := { JWT_SECRET_KEY := "", Now := 10 }

/-- The store after alice registered on the empty store. -/
def dbAlice : DB := (registerUser demo hostK regAlice DB.empty).db

/-! ## Lemmas on the handlers -/

/-- A body that fails validation is turned down before any call is made. -/
theorem registerUser_invalid (env : Env) (host : Host) (c : Request) (db : DB) (u : user)
    (hbind : env.bindUser c.Body = .ok u)
    (hbad : env.IsEmail u.Email = false ∨ u.Password.utf8ByteSize < 6) :
    ∃ msg, registerUser env host c db = ⟨db, ⟨StatusBadRequest, .error msg⟩, []⟩ := by
  unfold registerUser
  rw [hbind]
  rcases hbad with h | h
  · simp [user.Validate, h]
  · by_cases he : env.IsEmail u.Email = true
    · simp [user.Validate, he, h]
    · simp [user.Validate, he]

/-- A registration answered with 200 went through every step of the handler. -/
theorem registerUser_ok_inv (env : Env) (host : Host) (c : Request) (db : DB)
    (hok : (registerUser env host c db).reply.status = StatusOK) :
    ∃ u h db1, env.bindUser c.Body = .ok u ∧ u.Validate env = .ok () ∧
      env.GenerateFromPassword host.Rand u.Password = .ok h ∧
      db.CreateUser env host.Now { u with Password := h } = .ok db1 ∧
      registerUser env host c db =
        ⟨db1, ⟨StatusOK, .message "User registered successfully"⟩,
          [.GenerateFromPassword u.Password, .CreateUser { u with Password := h }]⟩ := by
  unfold registerUser at hok ⊢
  cases hb : env.bindUser c.Body with
  | error e => simp [hb] at hok
  | ok u =>
    simp only [hb] at hok ⊢
    cases hv : u.Validate env with
    | error e => simp [hv] at hok
    | ok _ =>
      simp only [hv] at hok ⊢
      cases hg : env.GenerateFromPassword host.Rand u.Password with
      | error e => simp [user.SetPassword, hg] at hok
      | ok h =>
        simp only [user.SetPassword, hg] at hok ⊢
        cases hc : db.CreateUser env host.Now { u with Password := h } with
        | error e => simp [hc] at hok
        | ok db1 =>
          exact ⟨u, h, db1, rfl, hv, hg, hc, by simp [hc]⟩

/-- A successful `Create` of a user found no row with the email or the key and
appended one row made of the value's columns. -/
theorem CreateUser_ok_inv (env : Env) (now : Time) (db db1 : DB) (v : user)
    (h : db.CreateUser env now v = .ok db1) :
    (∀ r ∈ db.users.rows, r.Email ≠ v.Email) ∧
      (∀ r ∈ db.users.rows, r.ID ≠ (Model.created now db.users.nextID v.toModel).ID) ∧
      db1.users.rows = db.users.rows ++
        [{ v with toModel := Model.created now db.users.nextID v.toModel, Photo := [] }] := by
  unfold DB.CreateUser at h
  simp only at h
  split at h
  · simp at h
  · rename_i hid
    split at h
    · simp at h
    · rename_i hem
      simp only [List.any_eq_true, decide_eq_true_eq, not_exists, not_and] at hid hem
      refine ⟨fun r hr => hem r hr, fun r hr => hid r hr, ?_⟩
      split at h
      · simp only [Except.ok.injEq] at h
        rw [← h]
      · split at h
        · simp at h
        · simp only [Except.ok.injEq] at h
          rw [← h]

/-- The stand-in hasher never returns its input. -/
theorem demo_hashDiffers : demo.hashDiffers := by
  intro rand p h hgen heq
  simp only [demo, Except.ok.injEq] at hgen
  have hlen : h.length = 7 + p.length := by
    rw [← hgen, String.length_append]; rfl
  rw [heq] at hlen
  omega

/-- Without a header the middleware answers 401 before it reads the secret. -/
theorem authMiddleware_absent (env : Env) (host : Host) (c : Request)
    (h : c.Authorization = "") :
    authMiddleware env host c =
      (.abort ⟨StatusUnauthorized, .error "Authorization header required"⟩, []) := by
  simp [authMiddleware, h]

/-- With a header and no secret the middleware answers 500 before it parses. -/
theorem authMiddleware_nokey (env : Env) (host : Host) (c : Request)
    (h : c.Authorization ≠ "") (hk : host.JWT_SECRET_KEY = "") :
    authMiddleware env host c =
      (.abort ⟨StatusInternalServerError, .error "Internal server error"⟩,
        [.Getenv "JWT_SECRET_KEY"]) := by
  simp [authMiddleware, h, hk]

/-- With a header and a secret, a token that fails to verify gets 401. -/
theorem authMiddleware_reject (env : Env) (host : Host) (c : Request)
    (h : c.Authorization ≠ "") (hk : host.JWT_SECRET_KEY ≠ "")
    (hr : env.rejects c.Authorization host.JWT_SECRET_KEY) :
    authMiddleware env host c =
      (.abort ⟨StatusUnauthorized, .error "Invalid token"⟩, checkCalls host c) := by
  unfold Env.rejects at hr
  rcases hr with hr | hr <;> simp [authMiddleware, h, hk, hr, checkCalls]

/-- With a header and a secret, a token that verifies is let through. -/
theorem authMiddleware_accept (env : Env) (host : Host) (c : Request)
    (h : c.Authorization ≠ "") (hk : host.JWT_SECRET_KEY ≠ "")
    (ha : env.accepts c.Authorization host.JWT_SECRET_KEY) :
    authMiddleware env host c = (.next, checkCalls host c) := by
  unfold Env.accepts at ha
  simp [authMiddleware, h, hk, ha.1, ha.2, checkCalls]

/-- On a gated route the chain is the middleware, then the handler. -/
theorem serve_gated (env : Env) (host : Host) (c : Request) (db : DB)
    (hr : (c.Method, c.FullPath) ∈ gatedRoutes) :
    serve env host c db =
      match authMiddleware env host c with
      | (.abort reply, calls) => ⟨db, reply, calls⟩
      | (.next, calls) =>
        ⟨(gatedHandler env host c db).db, (gatedHandler env host c db).reply,
          calls ++ (gatedHandler env host c db).calls⟩ := by
  simp only [gatedRoutes, List.mem_cons, Prod.mk.injEq, List.mem_singleton, List.not_mem_nil,
    or_false] at hr
  rcases hr with ⟨hm, hp⟩ | ⟨hm, hp⟩ | ⟨hm, hp⟩
  · have hf : findRoute "POST" "/photo" = some ⟨"POST", "/photo", [.authMiddleware, .uploadPhoto]⟩ := by
      decide
    simp only [serve, hm, hp, hf, runHandlers, execHandler, gatedHandler]
    rcases authMiddleware env host c with ⟨g, calls⟩
    cases g <;> simp
  · have hf : findRoute "PUT" "/photo/:photoId" =
        some ⟨"PUT", "/photo/:photoId", [.authMiddleware, .updatePhoto]⟩ := by decide
    simp only [serve, hm, hp, hf, runHandlers, execHandler, gatedHandler]
    rcases authMiddleware env host c with ⟨g, calls⟩
    cases g <;> simp
  · have hf : findRoute "DELETE" "/photo/:photoId" =
        some ⟨"DELETE", "/photo/:photoId", [.authMiddleware, .deletePhoto]⟩ := by decide
    simp only [serve, hm, hp, hf, runHandlers, execHandler, gatedHandler]
    rcases authMiddleware env host c with ⟨g, calls⟩
    cases g <;> simp

/-- On an open route the chain is the handler alone. -/
theorem serve_open (env : Env) (host : Host) (c : Request) (db : DB)
    (hr : (c.Method, c.FullPath) ∈ openRoutes) :
    serve env host c db = openHandler env host c db := by
  simp only [openRoutes, List.mem_cons, Prod.mk.injEq, List.mem_singleton, List.not_mem_nil,
    or_false] at hr
  rcases hr with ⟨hm, hp⟩ | ⟨hm, hp⟩ | ⟨hm, hp⟩ | ⟨hm, hp⟩ | ⟨hm, hp⟩
  · have hf : findRoute "POST" "/user/register" =
        some ⟨"POST", "/user/register", [.registerUser]⟩ := by decide
    simp [serve, hm, hp, hf, runHandlers, execHandler, openHandler]
  · have hf : findRoute "POST" "/user/login" = some ⟨"POST", "/user/login", [.loginUser]⟩ := by
      decide
    simp [serve, hm, hp, hf, runHandlers, execHandler, openHandler]
  · have hf : findRoute "PUT" "/user/:userId" = some ⟨"PUT", "/user/:userId", [.updateUser]⟩ := by
      decide
    simp [serve, hm, hp, hf, runHandlers, execHandler, openHandler]
  · have hf : findRoute "DELETE" "/user/:userId" =
        some ⟨"DELETE", "/user/:userId", [.deleteUser]⟩ := by decide
    simp [serve, hm, hp, hf, runHandlers, execHandler, openHandler]
  · have hf : findRoute "GET" "/photo" = some ⟨"GET", "/photo", [.getPhoto]⟩ := by decide
    simp [serve, hm, hp, hf, runHandlers, execHandler, openHandler]

/-! ## Registration -/

/-- C1 (evaluation of the code): `Validate` measures the password with Go's
`len`, which counts bytes. A body with a valid email and a password of fewer
than 6 characters that fills at least 6 bytes, such as `ééé`, is therefore not
answered with 400: the handler goes on to the hasher with it, whatever the
libraries do. -/
theorem registerUser_counts_bytes (env : Env) (host : Host) (c : Request) (db : DB) (u : user)
    (hbind : env.bindUser c.Body = .ok u) (hemail : env.IsEmail u.Email = true)
    (_hchars : u.Password.length < 6) (hbytes : 6 ≤ u.Password.utf8ByteSize) :
    (registerUser env host c db).reply.status ≠ StatusBadRequest ∧
      Call.GenerateFromPassword u.Password ∈ (registerUser env host c db).calls := by
  have hv : u.Validate env = .ok () := by
    have hlen : ¬ (u.Password.utf8ByteSize < 6) := by omega
    simp [user.Validate, hemail, hlen]
  constructor
  · unfold registerUser
    simp only [hbind, hv]
    cases hg : u.SetPassword env host.Rand u.Password with
    | error e => simp
    | ok hashed =>
      simp only
      cases hc : db.CreateUser env host.Now hashed <;> simp
  · unfold registerUser
    simp only [hbind, hv]
    cases hg : u.SetPassword env host.Rand u.Password with
    | error e => simp
    | ok hashed =>
      simp only
      cases hc : db.CreateUser env host.Now hashed <;> simp

/-- C1 (evaluation of the code) at a concrete request: the password `ééé` has
three characters and six bytes; the request is answered with 200, after the
hasher was called, and a row is written. -/
theorem registerUser_counts_bytes_witness :
    "ééé".length = 3 ∧ "ééé".utf8ByteSize = 6 ∧
      ((registerUser demo hostK regEve DB.empty).reply.status ≠ StatusBadRequest ∧
        Call.GenerateFromPassword "ééé" ∈ (registerUser demo hostK regEve DB.empty).calls) ∧
      (registerUser demo hostK regEve DB.empty).reply.status = StatusOK ∧
      (registerUser demo hostK regEve DB.empty).db.users.rows.length = 1 :=
  ⟨by decide, by decide,
    registerUser_counts_bytes demo hostK regEve DB.empty
      { Username := "eve", Email := "eve@example.com", Password := "ééé" } rfl (by decide)
      (by decide) (by decide),
    by decide, by decide⟩

/-- C3: when a register request is answered with 200, the record handed to the
store's create operation carries the hasher's output on the submitted password
in its password field, with every other field as submitted; given a hasher that
never returns its input, that field differs from the submitted plaintext; and
the row written holds the submitted username and email next to the hash. -/
theorem registerUser_stores_hash (env : Env) (hfix : env.hashDiffers) (host : Host)
    (c : Request) (db : DB) (u : user) (hbind : env.bindUser c.Body = .ok u)
    (hok : (registerUser env host c db).reply.status = StatusOK) :
    ∃ h, env.GenerateFromPassword host.Rand u.Password = .ok h ∧ h ≠ u.Password ∧
      (registerUser env host c db).calls =
        [.GenerateFromPassword u.Password, .CreateUser { u with Password := h }] ∧
      ∃ row, (registerUser env host c db).db.users.rows = db.users.rows ++ [row] ∧
        row.Password = h ∧ row.Username = u.Username ∧ row.Email = u.Email := by
  obtain ⟨u1, h, db1, hb, _, hg, hc, heq⟩ := registerUser_ok_inv env host c db hok
  rw [hbind] at hb
  cases hb
  refine ⟨h, hg, hfix _ _ _ hg, by rw [heq], ?_⟩
  obtain ⟨_, _, hrows⟩ := CreateUser_ok_inv env host.Now db db1 _ hc
  refine ⟨{ toModel := Model.created host.Now db.users.nextID u.toModel, Username := u.Username,
            Email := u.Email, Password := h, Photo := [] }, ?_, rfl, rfl, rfl⟩
  rw [heq]
  exact hrows

/-- C3 at a concrete request: alice's registration on the empty store. -/
theorem registerUser_stores_hash_witness :
    ∃ h, demo.GenerateFromPassword hostK.Rand "secret1" = .ok h ∧ h ≠ "secret1" ∧
      (registerUser demo hostK regAlice DB.empty).calls =
        [.GenerateFromPassword "secret1",
          .CreateUser { Username := "alice", Email := "alice@example.com", Password := h }] ∧
      ∃ row, (registerUser demo hostK regAlice DB.empty).db.users.rows
          = DB.empty.users.rows ++ [row] ∧
        row.Password = h ∧ row.Username = "alice" ∧ row.Email = "alice@example.com" :=
  registerUser_stores_hash demo demo_hashDiffers hostK regAlice DB.empty
    { Username := "alice", Email := "alice@example.com", Password := "secret1" } rfl (by decide)

/-! ## Token check and route table -/

/-- C5 as stated fails: on the gated route `POST /photo`, a header that carries
no valid token is answered with 500, not 401, when no secret is configured. -/
theorem invalid_token_without_secret :
    (postPhotoGarbage.Method, postPhotoGarbage.FullPath) ∈ gatedRoutes ∧
      postPhotoGarbage.Authorization ≠ "" ∧
      demo.rejects postPhotoGarbage.Authorization hostNoKey.JWT_SECRET_KEY ∧
      (serve demo hostNoKey postPhotoGarbage DB.empty).reply.status = StatusInternalServerError ∧
      (serve demo hostNoKey postPhotoGarbage DB.empty).reply.status ≠ StatusUnauthorized := by
  refine ⟨by decide, by decide, ?_, by decide, by decide⟩
  left
  decide

/-- C5, amended: on each route gated by `authMiddleware`, an absent header is
answered with 401 and the handler is not run; with a header and a configured
secret, a token that fails verification is answered with 401 and the handler is
not run; with a header and a configured secret, a token that verifies makes the
middleware write nothing and the handler runs on the request. -/
theorem token_check_on_gated_routes (env : Env) (host : Host) (c : Request) (db : DB)
    (hr : (c.Method, c.FullPath) ∈ gatedRoutes) :
    (c.Authorization = "" →
        serve env host c db =
          ⟨db, ⟨StatusUnauthorized, .error "Authorization header required"⟩, []⟩) ∧
      (c.Authorization ≠ "" → host.JWT_SECRET_KEY ≠ "" →
        env.rejects c.Authorization host.JWT_SECRET_KEY →
        serve env host c db =
          ⟨db, ⟨StatusUnauthorized, .error "Invalid token"⟩, checkCalls host c⟩) ∧
      (c.Authorization ≠ "" → host.JWT_SECRET_KEY ≠ "" →
        env.accepts c.Authorization host.JWT_SECRET_KEY →
        (authMiddleware env host c).1 = .next ∧
          serve env host c db =
            ⟨(gatedHandler env host c db).db, (gatedHandler env host c db).reply,
              checkCalls host c ++ (gatedHandler env host c db).calls⟩) := by
  refine ⟨fun h => ?_, fun h hk hrej => ?_, fun h hk hacc => ?_⟩
  · rw [serve_gated env host c db hr, authMiddleware_absent env host c h]
  · rw [serve_gated env host c db hr, authMiddleware_reject env host c h hk hrej]
  · rw [serve_gated env host c db hr, authMiddleware_accept env host c h hk hacc]
    exact ⟨rfl, rfl⟩

/-- C5, amended, at concrete requests: `POST /photo` without a header, with a
token signed for another secret, and with a token that verifies. -/
theorem token_check_on_gated_routes_witness :
    serve demo hostK { postPhoto with Authorization := "" } DB.empty =
        ⟨DB.empty, ⟨StatusUnauthorized, .error "Authorization header required"⟩, []⟩ ∧
      serve demo hostK postPhotoGarbage DB.empty =
        ⟨DB.empty, ⟨StatusUnauthorized, .error "Invalid token"⟩,
          checkCalls hostK postPhotoGarbage⟩ ∧
      ((authMiddleware demo hostK postPhoto).1 = .next ∧
        serve demo hostK postPhoto DB.empty =
          ⟨(gatedHandler demo hostK postPhoto DB.empty).db,
            (gatedHandler demo hostK postPhoto DB.empty).reply,
            checkCalls hostK postPhoto ++ (gatedHandler demo hostK postPhoto DB.empty).calls⟩) :=
  ⟨(token_check_on_gated_routes demo hostK { postPhoto with Authorization := "" } DB.empty
      (by decide)).1 rfl,
    (token_check_on_gated_routes demo hostK postPhotoGarbage DB.empty (by decide)).2.1
      (by decide) (by decide) (Or.inl (by decide)),
    (token_check_on_gated_routes demo hostK postPhoto DB.empty (by decide)).2.2
      (by decide) (by decide) ⟨by decide, by decide⟩⟩

/-- C6: with a non-empty Authorization header and `JWT_SECRET_KEY` unset, the
middleware answers 500 after reading the environment only, so whatever the
token is, and on a gated route the handler is not run; with the header absent
it answers 401 whether or not the secret is set. -/
theorem token_check_secret_unset (env : Env) (host : Host) (c : Request) (db : DB) :
    (c.Authorization ≠ "" → host.JWT_SECRET_KEY = "" →
        authMiddleware env host c =
            (.abort ⟨StatusInternalServerError, .error "Internal server error"⟩,
              [.Getenv "JWT_SECRET_KEY"]) ∧
          ((c.Method, c.FullPath) ∈ gatedRoutes →
            serve env host c db =
              ⟨db, ⟨StatusInternalServerError, .error "Internal server error"⟩,
                [.Getenv "JWT_SECRET_KEY"]⟩)) ∧
      (c.Authorization = "" →
        authMiddleware env host c =
            (.abort ⟨StatusUnauthorized, .error "Authorization header required"⟩, []) ∧
          ((c.Method, c.FullPath) ∈ gatedRoutes →
            serve env host c db =
              ⟨db, ⟨StatusUnauthorized, .error "Authorization header required"⟩, []⟩)) := by
  refine ⟨fun h hk => ⟨authMiddleware_nokey env host c h hk, fun hr => ?_⟩,
    fun h => ⟨authMiddleware_absent env host c h, fun hr => ?_⟩⟩
  · rw [serve_gated env host c db hr, authMiddleware_nokey env host c h hk]
  · rw [serve_gated env host c db hr, authMiddleware_absent env host c h]

/-- C6 at concrete requests: a valid-looking token without a secret gets 500;
no header gets 401 with and without a secret. -/
theorem token_check_secret_unset_witness :
    serve demo hostNoKey postPhoto DB.empty =
        ⟨DB.empty, ⟨StatusInternalServerError, .error "Internal server error"⟩,
          [.Getenv "JWT_SECRET_KEY"]⟩ ∧
      serve demo hostNoKey { postPhoto with Authorization := "" } DB.empty =
        ⟨DB.empty, ⟨StatusUnauthorized, .error "Authorization header required"⟩, []⟩ ∧
      serve demo hostK { postPhoto with Authorization := "" } DB.empty =
        ⟨DB.empty, ⟨StatusUnauthorized, .error "Authorization header required"⟩, []⟩ :=
  ⟨((token_check_secret_unset demo hostNoKey postPhoto DB.empty).1 (by decide) rfl).2 (by decide),
    ((token_check_secret_unset demo hostNoKey { postPhoto with Authorization := "" } DB.empty).2
      rfl).2 (by decide),
    ((token_check_secret_unset demo hostK { postPhoto with Authorization := "" } DB.empty).2
      rfl).2 (by decide)⟩

/-- The handlers of the open routes read neither the Authorization header nor
the secret: requests and hosts that differ only there get the same outcome. -/
theorem openHandler_congr (env : Env) (host host1 : Host) (c c1 : Request) (db : DB)
    (hm : c1.Method = c.Method) (hp : c1.FullPath = c.FullPath) (hpar : c1.Param = c.Param)
    (hb : c1.Body = c.Body) (hn : host1.Now = host.Now) (hrand : host1.Rand = host.Rand) :
    openHandler env host1 c1 db = openHandler env host c db := by
  simp only [openHandler, registerUser, loginUser, getPhoto, updateUser, deleteUser,
    hm, hp, hpar, hb, hn, hrand]

/-- C7: in the route table built by `main`, the routes whose chain holds
`authMiddleware` are exactly `POST /photo`, `PUT /photo/:photoId` and
`DELETE /photo/:photoId`, each with the middleware ahead of its handler; the
other five, `GET /photo` and the four user
routes, have a chain made of their handler alone, so a request to one of them
is served by the handler directly and its outcome is the same for every value
of the Authorization header and of `JWT_SECRET_KEY`. -/
theorem routes_gating :
    (routes.filter (fun r => decide (HandlerFunc.authMiddleware ∈ r.Handlers))).map
        (fun r => (r.Method, r.Path, r.Handlers)) =
          [("POST", "/photo", [.authMiddleware, .uploadPhoto]),
            ("PUT", "/photo/:photoId", [.authMiddleware, .updatePhoto]),
            ("DELETE", "/photo/:photoId", [.authMiddleware, .deletePhoto])] ∧
      (routes.filter (fun r => !decide (HandlerFunc.authMiddleware ∈ r.Handlers))).map
        (fun r => (r.Method, r.Path, r.Handlers)) =
          [("POST", "/user/register", [.registerUser]), ("POST", "/user/login", [.loginUser]),
            ("PUT", "/user/:userId", [.updateUser]), ("DELETE", "/user/:userId", [.deleteUser]),
            ("GET", "/photo", [.getPhoto])] ∧
      ∀ (env : Env) (host host1 : Host) (c c1 : Request) (db : DB),
        (c.Method, c.FullPath) ∈ openRoutes →
        c1.Method = c.Method → c1.FullPath = c.FullPath → c1.Param = c.Param →
        c1.Body = c.Body → host1.Now = host.Now → host1.Rand = host.Rand →
        serve env host c db = openHandler env host c db ∧
          serve env host1 c1 db = serve env host c db := by
  refine ⟨by decide, by decide, ?_⟩
  intro env host host1 c c1 db hr hm hp hpar hb hn hrand
  have hr1 : (c1.Method, c1.FullPath) ∈ openRoutes := by rw [hm, hp]; exact hr
  refine ⟨serve_open env host c db hr, ?_⟩
  rw [serve_open env host c db hr, serve_open env host1 c1 db hr1]
  exact openHandler_congr env host host1 c c1 db hm hp hpar hb hn hrand

/-- C7 at concrete requests: alice's login is served by `loginUser` and gets the
same outcome with no header and no secret as with a header and a secret. -/
theorem routes_gating_witness :
    serve demo hostNoKey loginAlice dbAlice = openHandler demo hostNoKey loginAlice dbAlice ∧
      serve demo hostK { loginAlice with Authorization := "garbage" } dbAlice =
        serve demo hostNoKey loginAlice dbAlice :=
  routes_gating.2.2 demo hostNoKey hostK loginAlice { loginAlice with Authorization := "garbage" }
    dbAlice (by decide) rfl rfl rfl rfl rfl rfl

/-! ## Lemmas on the store -/

/-- Two different members make a list longer than one. -/
theorem one_lt_length_of_mem_ne {α : Type} {l : List α} {a b : α} (ha : a ∈ l) (hb : b ∈ l)
    (hab : a ≠ b) : 1 < l.length := by
  match l, ha, hb with
  | [x], ha, hb =>
    simp only [List.mem_singleton] at ha hb
    exact absurd (ha.trans hb.symm) hab
  | _ :: _ :: _, _, _ => simp

/-- Of a non-empty list of copies of one row, `firstByID` picks that row. -/
theorem firstByID_all_eq (row : user) : ∀ (l : List user), l ≠ [] → (∀ r ∈ l, r = row) →
    firstByID l = some row
  | [], hne, _ => absurd rfl hne
  | r :: rs, _, hall => by
    have hr : r = row := hall r (List.mem_cons_self r rs)
    subst hr
    by_cases hrs : rs = []
    · subst hrs
      simp [firstByID]
    · have ih := firstByID_all_eq r rs hrs (fun x hx => hall x (List.mem_cons_of_mem r hx))
      simp [firstByID, ih]

/-- A live row that is the only one with its email is what `First` finds. -/
theorem FirstUser_of_registered (db : DB) (row : user) (hreg : Registered row db)
    (hlive : row.live = true) : db.FirstUser row.Email = .ok row := by
  have hall : ∀ r ∈ db.users.rows.filter (fun r => r.live && decide (r.Email = row.Email)),
      r = row := by
    intro r hr
    simp only [List.mem_filter, Bool.and_eq_true, decide_eq_true_eq] at hr
    exact hreg.2 r hr.1 hr.2.2
  have hne : db.users.rows.filter (fun r => r.live && decide (r.Email = row.Email)) ≠ [] := by
    intro hnil
    have hmem : row ∈ db.users.rows.filter (fun r => r.live && decide (r.Email = row.Email)) := by
      simp only [List.mem_filter, Bool.and_eq_true, decide_eq_true_eq]
      exact ⟨hreg.1, hlive, trivial⟩
    rw [hnil] at hmem
    exact absurd hmem (List.not_mem_nil row)
  unfold DB.FirstUser
  rw [firstByID_all_eq row _ hne hall]

/-- With no live row of that email `First` reports record not found. -/
theorem FirstUser_none (db : DB) (email : String)
    (hno : ∀ r ∈ db.users.rows, r.live = true → r.Email ≠ email) :
    db.FirstUser email = .error "record not found" := by
  have hnil : db.users.rows.filter (fun r => r.live && decide (r.Email = email)) = [] := by
    rw [List.filter_eq_nil_iff]
    intro r hr
    simp only [Bool.and_eq_true, decide_eq_true_eq, not_and]
    exact fun hl => hno r hr hl
  unfold DB.FirstUser
  rw [hnil]
  rfl

/-- The handler `loginUser` hands the store back as it got it. -/
theorem loginUser_db (env : Env) (host : Host) (c : Request) (db : DB) :
    (loginUser env host c db).db = db := by
  unfold loginUser
  cases env.bindUser c.Body with
  | error e => rfl
  | ok d =>
    simp only
    cases db.FirstUser d.Email with
    | error e => rfl
    | ok row =>
      simp only
      split <;> rfl

/-- The status of a login in terms of the lookup and the comparison. -/
theorem loginUser_status (env : Env) (host : Host) (c : Request) (db : DB) (d : user)
    (hbind : env.bindUser c.Body = .ok d) :
    (∀ row, db.FirstUser d.Email = .ok row →
        env.CompareHashAndPassword row.Password d.Password = true →
        (loginUser env host c db).reply.status = StatusOK) ∧
      (∀ row, db.FirstUser d.Email = .ok row →
        env.CompareHashAndPassword row.Password d.Password = false →
        (loginUser env host c db).reply.status = StatusUnauthorized) ∧
      (∀ e, db.FirstUser d.Email = .error e →
        (loginUser env host c db).reply.status = StatusUnauthorized) := by
  refine ⟨fun row hf hc => ?_, fun row hf hc => ?_, fun e hf => ?_⟩
  · simp [loginUser, hbind, hf, hc]
  · simp [loginUser, hbind, hf, hc]
  · simp [loginUser, hbind, hf]

/-- A successful `Create` of another user keeps a registered row registered. -/
theorem CreateUser_registered (env : Env) (now : Time) (db db1 : DB) (v row : user)
    (hreg : Registered row db) (h : db.CreateUser env now v = .ok db1) : Registered row db1 := by
  obtain ⟨hem, _, hrows⟩ := CreateUser_ok_inv env now db db1 v h
  refine ⟨by rw [hrows]; exact List.mem_append_left _ hreg.1, fun r hr he => ?_⟩
  rw [hrows, List.mem_append, List.mem_singleton] at hr
  rcases hr with hr | hr
  · exact hreg.2 r hr he
  · subst hr
    exact absurd he.symm (hem row hreg.1)

/-- What a successful `Updates` on users did: nothing, or the field merge on the
selected rows with no email written twice. -/
theorem UpdatesUser_ok_inv (env : Env) (now : Time) (db db1 : DB) (id : String) (v : user)
    (h : db.UpdatesUser env now id v = .ok db1) :
    (v.hasUpdate = false ∧ db1 = db) ∨
      ∃ n, v.hasUpdate = true ∧ env.whereID id = some n ∧
        db1.users.rows = db.users.rows.map
          (fun r => if Model.selected n v.toModel r.toModel then user.updated now v r else r) ∧
        ¬ (v.Email ≠ "" ∧
            (∃ r ∈ db.users.rows, Model.selected n v.toModel r.toModel = true) ∧
            1 < ((db.users.rows.map (fun r =>
                if Model.selected n v.toModel r.toModel then user.updated now v r else r)).filter
                  (fun r => decide (r.Email = v.Email))).length) := by
  unfold DB.UpdatesUser at h
  by_cases hu : v.hasUpdate = true
  · right
    simp only [hu, Bool.not_true, Bool.false_eq_true, ↓reduceIte] at h
    cases hw : env.whereID id with
    | none => simp [hw] at h
    | some n =>
      simp only [hw] at h
      split at h
      · simp at h
      · rename_i hcond
        simp only [Bool.and_eq_true, decide_eq_true_eq, List.any_eq_true, not_and] at hcond
        refine ⟨n, hu, rfl, ?_, ?_⟩
        · split at h
          · simp only [Except.ok.injEq] at h
            rw [← h]
          · split at h
            · simp at h
            · simp only [Except.ok.injEq] at h
              rw [← h]
        · rintro ⟨h1, h2, h3⟩
          exact hcond ⟨h1, h2⟩ h3
  · left
    simp only [Bool.not_eq_true] at hu
    simp only [hu, Bool.not_false, ↓reduceIte, Except.ok.injEq] at h
    exact ⟨hu, h.symm⟩

/-- A selected row keeps the key of the path parameter through the merge. -/
theorem updated_ID_of_selected (now : Time) (n : Nat) (v r : Model)
    (h : Model.selected n v r = true) : (Model.updated now v r).ID = n := by
  simp only [Model.selected, Bool.and_eq_true, Bool.or_eq_true, decide_eq_true_eq] at h
  obtain ⟨⟨_, hid⟩, hv⟩ := h
  simp only [Model.updated]
  rcases hv with hv | hv
  · simp [hv, hid]
  · split
    · exact hid
    · rw [← hv]; exact hid

/-- A row with another key is not selected. -/
theorem not_selected_of_ne (n : Nat) (v r : Model) (h : r.ID ≠ n) :
    Model.selected n v r = false := by
  simp [Model.selected, h]

/-- An `Updates` aimed at another key keeps a registered row registered. -/
theorem UpdatesUser_registered (env : Env) (now : Time) (db db1 : DB) (id : String)
    (v row : user) (hreg : Registered row db) (hid : env.whereID id ≠ some row.ID)
    (h : db.UpdatesUser env now id v = .ok db1) : Registered row db1 := by
  rcases UpdatesUser_ok_inv env now db db1 id v h with ⟨_, heq⟩ | ⟨n, _, hw, hrows, hcond⟩
  · rw [heq]; exact hreg
  · have hne : row.ID ≠ n := fun hrn => hid (by rw [hw, hrn])
    have hrow : row ∈ db1.users.rows := by
      rw [hrows, List.mem_map]
      exact ⟨row, hreg.1, by rw [not_selected_of_ne n v.toModel row.toModel hne]; rfl⟩
    refine ⟨hrow, fun r1 hr1 he => ?_⟩
    have hr1mem := hr1
    rw [hrows, List.mem_map] at hr1
    obtain ⟨r, hr, hfr⟩ := hr1
    by_cases hsel : Model.selected n v.toModel r.toModel = true
    · exfalso
      simp only [hsel, ↓reduceIte] at hfr
      have hid1 : r1.ID = n := by
        rw [← hfr]
        exact updated_ID_of_selected now n v.toModel r.toModel hsel
      have hneq : r1 ≠ row := fun hrr => hne (by rw [← hrr]; exact hid1)
      by_cases hve : v.Email = ""
      · have : r1.Email = r.Email := by rw [← hfr]; simp [user.updated, hve]
        have hrr : r = row := hreg.2 r hr (this ▸ he)
        rw [hrr, not_selected_of_ne n v.toModel row.toModel hne] at hsel
        exact absurd hsel (by simp)
      · have hr1e : r1.Email = v.Email := by rw [← hfr]; simp [user.updated, hve]
        apply hcond
        refine ⟨hve, ⟨r, hr, hsel⟩, ?_⟩
        rw [← hrows]
        apply one_lt_length_of_mem_ne (a := r1) (b := row) _ _ hneq
        · simp only [List.mem_filter, decide_eq_true_eq]
          exact ⟨hr1mem, hr1e⟩
        · simp only [List.mem_filter, decide_eq_true_eq]
          exact ⟨hrow, by rw [← he, hr1e]⟩
    · simp only [hsel, Bool.false_eq_true, ↓reduceIte] at hfr
      rw [← hfr]
      rw [← hfr] at he
      exact hreg.2 r hr he

/-- A soft delete aimed at another key leaves the row as it is. -/
theorem deleted_of_ne (now : Time) (n : Nat) (r : Model) (h : r.ID ≠ n) :
    Model.deleted now n r = r := by
  simp [Model.deleted, h]

/-- What a successful delete on users did. -/
theorem DeleteUser_ok_inv (env : Env) (now : Time) (db db1 : DB) (id : String)
    (h : db.DeleteUser env now id = .ok db1) :
    ∃ n, env.whereID id = some n ∧ db1.photos = db.photos ∧
      db1.users.nextID = db.users.nextID ∧
      db1.users.rows =
        db.users.rows.map (fun r => { r with toModel := Model.deleted now n r.toModel }) := by
  unfold DB.DeleteUser at h
  cases hw : env.whereID id with
  | none => simp [hw] at h
  | some n =>
    simp only [hw, Except.ok.injEq] at h
    exact ⟨n, rfl, by rw [← h], by rw [← h], by rw [← h]⟩

/-- A delete aimed at another key keeps a registered row registered. -/
theorem DeleteUser_registered (env : Env) (now : Time) (db db1 : DB) (id : String)
    (row : user) (hreg : Registered row db) (hid : env.whereID id ≠ some row.ID)
    (h : db.DeleteUser env now id = .ok db1) : Registered row db1 := by
  obtain ⟨n, hw, _, _, hrows⟩ := DeleteUser_ok_inv env now db db1 id h
  have hne : row.ID ≠ n := fun hrn => hid (by rw [hw, hrn])
  have hfix : ({ row with toModel := Model.deleted now n row.toModel } : user) = row := by
    rw [deleted_of_ne now n row.toModel hne]
  refine ⟨by rw [hrows, List.mem_map]; exact ⟨row, hreg.1, hfix⟩, fun r1 hr1 he => ?_⟩
  rw [hrows, List.mem_map] at hr1
  obtain ⟨r, hr, hfr⟩ := hr1
  have hre : r.Email = row.Email := by rw [← he, ← hfr]
  have hrr : r = row := hreg.2 r hr hre
  rw [← hfr, hrr]
  exact hfix

/-- Being registered is a matter of the users rows only. -/
theorem Registered_of_rows (row : user) (db db1 : DB) (h : db1.users.rows = db.users.rows)
    (hreg : Registered row db) : Registered row db1 := by
  unfold Registered at hreg ⊢
  rw [h]
  exact hreg

/-- The handler `registerUser` keeps a registered row registered. -/
theorem registerUser_registered (env : Env) (host : Host) (c : Request) (db : DB) (row : user)
    (hreg : Registered row db) : Registered row (registerUser env host c db).db := by
  unfold registerUser
  cases env.bindUser c.Body with
  | error e => exact hreg
  | ok u =>
    simp only
    cases u.Validate env with
    | error e => exact hreg
    | ok _ =>
      simp only
      cases u.SetPassword env host.Rand u.Password with
      | error e => exact hreg
      | ok hashed =>
        simp only
        cases hc : db.CreateUser env host.Now hashed with
        | error e => exact hreg
        | ok db1 => exact CreateUser_registered env host.Now db db1 hashed row hreg hc

/-- The handler `updateUser` aimed at another key keeps a registered row
registered. -/
theorem updateUser_registered (env : Env) (host : Host) (c : Request) (db : DB) (row : user)
    (hreg : Registered row db) (hid : env.whereID c.Param ≠ some row.ID) :
    Registered row (updateUser env host c db).db := by
  unfold updateUser
  cases env.bindUser c.Body with
  | error e => exact hreg
  | ok v =>
    simp only
    cases hu : db.UpdatesUser env host.Now c.Param v with
    | error e => exact hreg
    | ok db1 => exact UpdatesUser_registered env host.Now db db1 c.Param v row hreg hid hu

/-- The handler `deleteUser` aimed at another key keeps a registered row
registered. -/
theorem deleteUser_registered (env : Env) (host : Host) (c : Request) (db : DB) (row : user)
    (hreg : Registered row db) (hid : env.whereID c.Param ≠ some row.ID) :
    Registered row (deleteUser env host c db).db := by
  unfold deleteUser
  simp only
  cases hd : db.DeleteUser env host.Now c.Param with
  | error e => exact hreg
  | ok db1 => exact DeleteUser_registered env host.Now db db1 c.Param row hreg hid hd

/-- The handler `uploadPhoto` does not write to the users table. -/
theorem uploadPhoto_users (env : Env) (host : Host) (c : Request) (db : DB) :
    (uploadPhoto env host c db).db.users = db.users := by
  unfold uploadPhoto
  cases env.bindPhoto c.Body with
  | error e => rfl
  | ok p =>
    simp only
    cases hc : db.CreatePhoto host.Now p with
    | error e => rfl
    | ok db1 =>
      simp only
      unfold DB.CreatePhoto at hc
      simp only at hc
      split at hc
      · simp at hc
      · simp only [Except.ok.injEq] at hc
        rw [← hc]

/-- The handler `updatePhoto` does not write to the users table. -/
theorem updatePhoto_users (env : Env) (host : Host) (c : Request) (db : DB) :
    (updatePhoto env host c db).db.users = db.users := by
  unfold updatePhoto
  cases env.bindPhoto c.Body with
  | error e => rfl
  | ok p =>
    simp only
    cases hc : db.UpdatesPhoto env host.Now c.Param p with
    | error e => rfl
    | ok db1 =>
      simp only
      unfold DB.UpdatesPhoto at hc
      split at hc
      · simp only [Except.ok.injEq] at hc
        rw [← hc]
      · split at hc
        · simp at hc
        · simp only [Except.ok.injEq] at hc
          rw [← hc]

/-- The handler `deletePhoto` does not write to the users table. -/
theorem deletePhoto_users (env : Env) (host : Host) (c : Request) (db : DB) :
    (deletePhoto env host c db).db.users = db.users := by
  unfold deletePhoto
  simp only
  cases hc : db.DeletePhoto env host.Now c.Param with
  | error e => rfl
  | ok db1 =>
    simp only
    unfold DB.DeletePhoto at hc
    split at hc
    · simp at hc
    · simp only [Except.ok.injEq] at hc
      rw [← hc]

/-- A route found for a method and a pattern is a registration with both. -/
theorem findRoute_some (m p : String) (r : RouteInfo) (h : findRoute m p = some r) :
    r ∈ routes ∧ r.Method = m ∧ r.Path = p := by
  unfold findRoute at h
  have h1 := List.find?_some h
  simp only [Bool.and_eq_true, decide_eq_true_eq] at h1
  exact ⟨List.mem_of_find?_eq_some h, h1.1, h1.2⟩

/-- Serving a request that is no update or delete of a registered user keeps
its row registered. -/
theorem serve_registered (env : Env) (host : Host) (c : Request) (db : DB) (row : user)
    (hreg : Registered row db) (ht : touchesUser env row.ID c = false) :
    Registered row (serve env host c db).db := by
  unfold serve
  cases hf : findRoute c.Method c.FullPath with
  | none => exact hreg
  | some r =>
    obtain ⟨hmem, hm, hp⟩ := findRoute_some _ _ r hf
    simp only [routes, List.mem_cons, List.mem_singleton, List.not_mem_nil, or_false] at hmem
    rcases hmem with h | h | h | h | h | h | h | h <;> subst h <;>
      simp only [runHandlers, execHandler]
    · exact registerUser_registered env host c db row hreg
    · rw [loginUser_db]; exact hreg
    · apply updateUser_registered env host c db row hreg
      intro hw
      simp [touchesUser, ← hm, ← hp, hw] at ht
    · apply deleteUser_registered env host c db row hreg
      intro hw
      simp [touchesUser, ← hm, ← hp, hw] at ht
    · rcases authMiddleware env host c with ⟨g, calls⟩
      cases g
      · exact hreg
      · exact Registered_of_rows row db _ (by simp [uploadPhoto_users]) hreg
    · exact hreg
    · rcases authMiddleware env host c with ⟨g, calls⟩
      cases g
      · exact hreg
      · exact Registered_of_rows row db _ (by simp [updatePhoto_users]) hreg
    · rcases authMiddleware env host c with ⟨g, calls⟩
      cases g
      · exact hreg
      · exact Registered_of_rows row db _ (by simp [deletePhoto_users]) hreg

/-- Serving requests none of which updates or deletes a registered user keeps
its row registered. -/
theorem serveAll_registered (env : Env) (row : user) :
    ∀ (later : List (Host × Request)) (db : DB), Registered row db →
      (∀ q ∈ later, touchesUser env row.ID q.2 = false) →
      Registered row (serveAll env later db)
  | [], _, hreg, _ => hreg
  | (host, c) :: rest, db, hreg, hq =>
    serveAll_registered env row rest (serve env host c db).db
      (serve_registered env host c db row hreg (hq (host, c) (List.mem_cons_self _ _)))
      (fun q hqm => hq q (List.mem_cons_of_mem _ hqm))

/-- The stand-in hasher accepts the password it hashed. -/
theorem demo_completes : demo.completes := by
  intro rand p h hgen
  simp only [demo, Except.ok.injEq] at hgen
  simp only [demo, decide_eq_true_eq, ← hgen]

/-! ## Login -/

/-- C4 as stated fails in two ways. A registration whose body also sets
`DeletedAt` is answered with 200, yet the row is written soft-deleted, and a
login with the very email and password that were registered is answered with
401. And with a hasher that reads the password as bcrypt does, a user
registered with a 72-byte password is logged in with 200 by a different
password, the registered one followed by one more byte. -/
theorem login_after_register_fails :
    (demo.bindUser regBob.Body =
        .ok { Username := "bob", Email := "bob@example.com", Password := "secret2",
              DeletedAt := some 5 } ∧
      (registerUser demo hostK regBob DB.empty).reply.status = StatusOK ∧
      demo.bindUser loginBob.Body = .ok { Email := "bob@example.com", Password := "secret2" } ∧
      (loginUser demo hostK20 loginBob (registerUser demo hostK regBob DB.empty).db).reply
        = ⟨StatusUnauthorized, .error "User not found"⟩) ∧
    (bcryptLike.bindUser regLong.Body =
        .ok { Username := "dave", Email := "dave@example.com", Password := longPassword } ∧
      longPassword.utf8ByteSize = 72 ∧
      (registerUser bcryptLike hostK regLong DB.empty).reply.status = StatusOK ∧
      bcryptLike.bindUser loginLong.Body =
        .ok { Email := "dave@example.com", Password := longPassword ++ "x" } ∧
      longPassword ++ "x" ≠ longPassword ∧
      (loginUser bcryptLike hostK20 loginLong
        (registerUser bcryptLike hostK regLong DB.empty).db).reply
        = ⟨StatusOK, .message "Login successful"⟩) :=
  ⟨⟨rfl, by decide, rfl, by decide⟩,
    ⟨rfl, by decide, by decide, rfl, by decide, by decide⟩⟩

/-- C4, amended: `loginUser` never changes the store, and a login whose email
matches no live user is answered with 401. When a registration whose body sets
no deletion timestamp is answered with 200, the store holds a row for it with
the hasher's output on the registered password, and after any later requests
that neither update nor delete that user, a login with the registered email is
answered with 200 when `CompareHashAndPassword` accepts the submitted password
against that hash and with 401 when it rejects it; with the registered password
it is answered with 200, given a hasher that accepts the password it hashed. -/
theorem login_after_register (env : Env) (host : Host) (c : Request)
    (db : DB) (u : user) (hbind : env.bindUser c.Body = .ok u) (hlive : u.DeletedAt = none)
    (hok : (registerUser env host c db).reply.status = StatusOK) :
    (∀ (host2 : Host) (c2 : Request) (db2 : DB), (loginUser env host2 c2 db2).db = db2) ∧
      (∀ (host2 : Host) (c2 : Request) (db2 : DB) (d : user), env.bindUser c2.Body = .ok d →
        (∀ r ∈ db2.users.rows, r.live = true → r.Email ≠ d.Email) →
        (loginUser env host2 c2 db2).reply.status = StatusUnauthorized) ∧
      ∃ row ∈ (registerUser env host c db).db.users.rows, row.Email = u.Email ∧
        env.GenerateFromPassword host.Rand u.Password = .ok row.Password ∧
        ∀ (later : List (Host × Request)), (∀ q ∈ later, touchesUser env row.ID q.2 = false) →
          ∀ (host2 : Host) (c2 : Request) (d : user), env.bindUser c2.Body = .ok d →
            d.Email = u.Email →
            (env.CompareHashAndPassword row.Password d.Password = true →
              (loginUser env host2 c2
                (serveAll env later (registerUser env host c db).db)).reply.status = StatusOK) ∧
            (env.CompareHashAndPassword row.Password d.Password = false →
              (loginUser env host2 c2
                (serveAll env later (registerUser env host c db).db)).reply.status
                  = StatusUnauthorized) ∧
            (env.completes → d.Password = u.Password →
              (loginUser env host2 c2
                (serveAll env later (registerUser env host c db).db)).reply.status = StatusOK) := by
  refine ⟨fun host2 c2 db2 => loginUser_db env host2 c2 db2, fun host2 c2 db2 d hb hno => ?_, ?_⟩
  · exact (loginUser_status env host2 c2 db2 d hb).2.2 _ (FirstUser_none db2 d.Email hno)
  · obtain ⟨u1, h, db1, hb, _, hg, hc, heq⟩ := registerUser_ok_inv env host c db hok
    rw [hbind] at hb
    cases hb
    obtain ⟨hem, _, hrows⟩ := CreateUser_ok_inv env host.Now db db1 _ hc
    have hdb : (registerUser env host c db).db = db1 := by rw [heq]
    rw [hdb]
    let row : user :=
      { toModel := Model.created host.Now db.users.nextID u.toModel, Username := u.Username,
        Email := u.Email, Password := h, Photo := [] }
    have hmem : row ∈ db1.users.rows := by
      rw [hrows]
      exact List.mem_append_right _ (List.mem_singleton_self _)
    have hreg : Registered row db1 := by
      refine ⟨hmem, fun r hr he => ?_⟩
      rw [hrows, List.mem_append, List.mem_singleton] at hr
      rcases hr with hr | hr
      · exact absurd he (hem r hr)
      · exact hr
    have hrowlive : row.live = true := by
      simp only [row, Model.live, Model.created, hlive]
      rfl
    refine ⟨row, hmem, rfl, hg, fun later hlater host2 c2 d hb2 hde => ?_⟩
    have hreg2 := serveAll_registered env row later db1 hreg hlater
    have hfirst := FirstUser_of_registered _ row hreg2 hrowlive
    have hfirst2 : (serveAll env later db1).FirstUser d.Email = .ok row := by
      rw [hde]
      exact hfirst
    have hst := loginUser_status env host2 c2 (serveAll env later db1) d hb2
    refine ⟨fun hcmp => hst.1 row hfirst2 hcmp, fun hcmp => hst.2.1 row hfirst2 hcmp,
      fun hcomp hpw => hst.1 row hfirst2 ?_⟩
    rw [hpw]
    exact hcomp host.Rand u.Password h hg

/-- C4, amended, at concrete requests: alice registers, then bob registers and a
photo is uploaded; her login with her password then gets 200, and a login with
a password the comparison rejects gets 401. -/
theorem login_after_register_witness :
    demo.bindUser regAlice.Body =
        .ok { Username := "alice", Email := "alice@example.com", Password := "secret1" } ∧
      (registerUser demo hostK regAlice DB.empty).reply.status = StatusOK ∧
      (loginUser demo hostK20 loginAlice
        (serveAll demo [(hostK, regBob), (hostK20, postPhoto)]
          (registerUser demo hostK regAlice DB.empty).db)).reply.status = StatusOK ∧
      (loginUser demo hostK20 loginAliceWrong
        (serveAll demo [(hostK, regBob), (hostK20, postPhoto)]
          (registerUser demo hostK regAlice DB.empty).db)).reply.status = StatusUnauthorized := by
  obtain ⟨row, hrow, _, _, h⟩ := (login_after_register demo hostK regAlice DB.empty
    { Username := "alice", Email := "alice@example.com", Password := "secret1" }
    rfl rfl (by decide)).2.2
  have hlater : ∀ q ∈ [(hostK, regBob), (hostK20, postPhoto)],
      touchesUser demo row.ID q.2 = false := by
    intro q hq
    simp only [List.mem_cons, List.mem_singleton, List.not_mem_nil, or_false] at hq
    rcases hq with hq | hq <;> subst hq <;> simp [touchesUser, regBob, postPhoto]
  have hrowpw : row.Password = "$2a$10$secret1" := by
    have hrows : (registerUser demo hostK regAlice DB.empty).db.users.rows =
        [{ ID := 1, CreatedAt := 10, UpdatedAt := 10, Username := "alice",
           Email := "alice@example.com", Password := "$2a$10$secret1" }] := by decide
    rw [hrows, List.mem_singleton] at hrow
    rw [hrow]
  refine ⟨rfl, by decide, ?_, ?_⟩
  · exact (h _ hlater hostK20 loginAlice
      { Email := "alice@example.com", Password := "secret1" } rfl rfl).2.2 demo_completes rfl
  · refine (h _ hlater hostK20 loginAliceWrong
      { Email := "alice@example.com", Password := "wrong" } rfl rfl).2.1 ?_
    rw [hrowpw]
    decide

/-! ## Photos -/

/-- What a successful `Create` of a photo did: one row appended, made of the
value with key and timestamps filled in. -/
theorem CreatePhoto_ok_inv (now : Time) (db db1 : DB) (p : Photo)
    (h : db.CreatePhoto now p = .ok db1) :
    db1.photos.rows = db.photos.rows ++
      [{ p with toModel := Model.created now db.photos.nextID p.toModel }] := by
  unfold DB.CreatePhoto at h
  simp only at h
  split at h
  · simp at h
  · simp only [Except.ok.injEq] at h
    rw [← h]

/-- C8 as stated fails: on the empty store `uploadPhoto` accepts a body that
also sets `DeletedAt` with 200, and the following `getPhoto` answers 200 with
the empty list, not with a list holding the uploaded photo. -/
theorem getPhoto_after_upload_deleted :
    DB.empty.photos.rows = [] ∧
      demo.bindPhoto postPhotoDeleted.Body = .ok { Title := "t", DeletedAt := some 5 } ∧
      (uploadPhoto demo hostK postPhotoDeleted DB.empty).reply.status = StatusOK ∧
      (getPhoto demo hostK20 getPhotos (uploadPhoto demo hostK postPhotoDeleted DB.empty).db).reply
        = ⟨StatusOK, .photos (some [])⟩ :=
  ⟨rfl, rfl, by decide, by decide⟩

/-- C8, amended: on a store with no live photo `getPhoto` answers 200 with the
empty list, which is not null; and for every body that `uploadPhoto` accepts with 200 on that
store and that sets no deletion timestamp, a following `getPhoto` answers 200
with a list of exactly one photo, whose title, caption, photo_url and user_id
are the uploaded values. -/
theorem getPhoto_after_upload (env : Env) (host host2 : Host) (c c2 : Request) (db : DB)
    (hnone : ∀ r ∈ db.photos.rows, r.live = false) :
    getPhoto env host2 c2 db = ⟨db, ⟨StatusOK, .photos (some [])⟩, [.FindPhoto]⟩ ∧
      (getPhoto env host2 c2 db).reply.body ≠ .photos none ∧
      ∀ p, env.bindPhoto c.Body = .ok p → p.DeletedAt = none →
        (uploadPhoto env host c db).reply.status = StatusOK →
        ∃ row, (getPhoto env host2 c2 (uploadPhoto env host c db).db).reply
            = ⟨StatusOK, .photos (some [row])⟩ ∧
          row.Title = p.Title ∧ row.Caption = p.Caption ∧ row.PhotoURL = p.PhotoURL ∧
          row.UserID = p.UserID := by
  have hfil : db.photos.rows.filter (fun r => r.live) = [] := by
    rw [List.filter_eq_nil_iff]
    intro r hr
    rw [hnone r hr]
    simp
  have hget : getPhoto env host2 c2 db = ⟨db, ⟨StatusOK, .photos (some [])⟩, [.FindPhoto]⟩ := by
    simp [getPhoto, DB.FindPhoto, hfil]
  refine ⟨hget, by rw [hget]; simp, ?_⟩
  · intro p hb hdel hok
    unfold uploadPhoto at hok ⊢
    simp only [hb] at hok ⊢
    cases hc : db.CreatePhoto host.Now p with
    | error e => simp [hc] at hok
    | ok db1 =>
      simp only
      have hrows := CreatePhoto_ok_inv host.Now db db1 p hc
      refine ⟨{ p with toModel := Model.created host.Now db.photos.nextID p.toModel },
        ?_, rfl, rfl, rfl, rfl⟩
      have hlive : (Model.created host.Now db.photos.nextID p.toModel).live = true := by
        simp only [Model.live, Model.created, hdel]
        rfl
      simp only [getPhoto, DB.FindPhoto, hrows, List.filter_append, hfil, List.nil_append]
      simp only [List.filter, hlive]

/-- C8, amended, at concrete requests: the documented body uploaded on the
empty store is the one photo listed afterwards. -/
theorem getPhoto_after_upload_witness :
    getPhoto demo hostK20 getPhotos DB.empty =
        ⟨DB.empty, ⟨StatusOK, .photos (some [])⟩, [.FindPhoto]⟩ ∧
      ∃ row, (getPhoto demo hostK20 getPhotos (uploadPhoto demo hostK postPhoto DB.empty).db).reply
          = ⟨StatusOK, .photos (some [row])⟩ ∧
        row.Title = "t" ∧ row.Caption = "c" ∧ row.PhotoURL = "u" ∧ row.UserID = 1 :=
  ⟨(getPhoto_after_upload demo hostK hostK20 postPhoto getPhotos DB.empty
      (fun _ hr => absurd hr (List.not_mem_nil _))).1,
    (getPhoto_after_upload demo hostK hostK20 postPhoto getPhotos DB.empty
      (fun _ hr => absurd hr (List.not_mem_nil _))).2.2
      { Title := "t", Caption := "c", PhotoURL := "u", UserID := 1 } rfl rfl (by decide)⟩

/-! ## Delete by id -/

/-- A soft delete that finds no live row with the key changes no row. -/
theorem map_deleted_of_no_live {α : Type} (toM : α → Model) (set : α → Model → α)
    (hset : ∀ r, set r (toM r) = r) (now : Time) (n : Nat) (rows : List α)
    (hno : ∀ r ∈ rows, (toM r).live = true → (toM r).ID ≠ n) :
    rows.map (fun r => set r (Model.deleted now n (toM r))) = rows := by
  conv_rhs => rw [← List.map_id rows]
  apply List.map_congr_left
  intro r hr
  have : Model.deleted now n (toM r) = toM r := by
    unfold Model.deleted
    split
    · rename_i hc
      simp only [Bool.and_eq_true, decide_eq_true_eq] at hc
      exact absurd hc.2 (hno r hr hc.1)
    · rfl
  rw [this, hset]
  rfl

/-- After a soft delete of a key no live row has that key. -/
theorem deleted_not_live (now : Time) (n : Nat) (r : Model)
    (hl : (Model.deleted now n r).live = true) : (Model.deleted now n r).ID ≠ n := by
  unfold Model.deleted at hl ⊢
  split
  · rename_i hc
    simp only [hc, ↓reduceIte] at hl
    simp [Model.live] at hl
  · rename_i hc
    simp only [hc] at hl
    simp only [Bool.and_eq_true, decide_eq_true_eq, not_and] at hc
    exact hc hl

/-- The handler `deleteUser` when the backend reads the path parameter as `n`. -/
theorem deleteUser_eq (env : Env) (host : Host) (c : Request) (db : DB) (n : Nat)
    (hw : env.whereID c.Param = some n) :
    deleteUser env host c db =
      ⟨{ db with users := { db.users with
            rows := db.users.rows.map
                      (fun r => { r with toModel := Model.deleted host.Now n r.toModel }) } },
        ⟨StatusOK, .message "User deleted successfully"⟩, [.DeleteUser c.Param]⟩ := by
  simp [deleteUser, DB.DeleteUser, hw]

/-- The handler `deletePhoto` when the backend reads the path parameter as `n`. -/
theorem deletePhoto_eq (env : Env) (host : Host) (c : Request) (db : DB) (n : Nat)
    (hw : env.whereID c.Param = some n) :
    deletePhoto env host c db =
      ⟨{ db with photos := { db.photos with
            rows := db.photos.rows.map
                      (fun r => { r with toModel := Model.deleted host.Now n r.toModel }) } },
        ⟨StatusOK, .message "Photo deleted successfully"⟩, [.DeletePhoto c.Param]⟩ := by
  simp [deletePhoto, DB.DeletePhoto, hw]

/-- The store call of `deleteUser` reports no error only when the backend read
the path parameter as a key. -/
theorem DeleteUser_ok_key (env : Env) (now : Time) (db : DB) (id : String)
    (h : ∃ db1, db.DeleteUser env now id = .ok db1) : ∃ n, env.whereID id = some n := by
  obtain ⟨db1, h⟩ := h
  unfold DB.DeleteUser at h
  cases hw : env.whereID id with
  | none => simp [hw] at h
  | some n => exact ⟨n, rfl⟩

/-- The store call of `deletePhoto` reports no error only when the backend read
the path parameter as a key. -/
theorem DeletePhoto_ok_key (env : Env) (now : Time) (db : DB) (id : String)
    (h : ∃ db1, db.DeletePhoto env now id = .ok db1) : ∃ n, env.whereID id = some n := by
  obtain ⟨db1, h⟩ := h
  unfold DB.DeletePhoto at h
  cases hw : env.whereID id with
  | none => simp [hw] at h
  | some n => exact ⟨n, rfl⟩

/-- C10: whenever the store call reports no error, `deleteUser` answers 200;
called on an id that matches no live row it leaves the store as it was; and a
second delete of the same id answers 200 again and leaves the store in the
state the first one left. The same holds for `deletePhoto`. -/
theorem delete_idempotent (env : Env) (host host2 : Host) (c : Request) (db : DB) :
    ((∃ db1, db.DeleteUser env host.Now c.Param = .ok db1) →
        (deleteUser env host c db).reply.status = StatusOK ∧
        ((∀ r ∈ db.users.rows, r.live = true → env.whereID c.Param ≠ some r.ID) →
          deleteUser env host c db =
            ⟨db, ⟨StatusOK, .message "User deleted successfully"⟩, [.DeleteUser c.Param]⟩) ∧
        deleteUser env host2 c (deleteUser env host c db).db =
          ⟨(deleteUser env host c db).db, ⟨StatusOK, .message "User deleted successfully"⟩,
            [.DeleteUser c.Param]⟩) ∧
      ((∃ db1, db.DeletePhoto env host.Now c.Param = .ok db1) →
        (deletePhoto env host c db).reply.status = StatusOK ∧
        ((∀ r ∈ db.photos.rows, r.live = true → env.whereID c.Param ≠ some r.ID) →
          deletePhoto env host c db =
            ⟨db, ⟨StatusOK, .message "Photo deleted successfully"⟩, [.DeletePhoto c.Param]⟩) ∧
        deletePhoto env host2 c (deletePhoto env host c db).db =
          ⟨(deletePhoto env host c db).db, ⟨StatusOK, .message "Photo deleted successfully"⟩,
            [.DeletePhoto c.Param]⟩) := by
  constructor
  · intro hstore
    obtain ⟨n, hw⟩ := DeleteUser_ok_key env host.Now db c.Param hstore
    refine ⟨by rw [deleteUser_eq env host c db n hw], fun hno => ?_, ?_⟩
    · rw [deleteUser_eq env host c db n hw,
        map_deleted_of_no_live user.toModel (fun r m => { r with toModel := m }) (fun _ => rfl)
          host.Now n db.users.rows (fun r hr hl hid => hno r hr hl (by rw [hw, hid]))]
    · rw [deleteUser_eq env host c db n hw, deleteUser_eq env host2 c _ n hw]
      simp only
      rw [map_deleted_of_no_live user.toModel (fun r m => { r with toModel := m })
        (fun _ => rfl) host2.Now n]
      intro r1 hr1 hl
      rw [List.mem_map] at hr1
      obtain ⟨r, _, hr⟩ := hr1
      rw [← hr] at hl ⊢
      exact deleted_not_live host.Now n r.toModel hl
  · intro hstore
    obtain ⟨n, hw⟩ := DeletePhoto_ok_key env host.Now db c.Param hstore
    refine ⟨by rw [deletePhoto_eq env host c db n hw], fun hno => ?_, ?_⟩
    · rw [deletePhoto_eq env host c db n hw,
        map_deleted_of_no_live Photo.toModel (fun r m => { r with toModel := m }) (fun _ => rfl)
          host.Now n db.photos.rows (fun r hr hl hid => hno r hr hl (by rw [hw, hid]))]
    · rw [deletePhoto_eq env host c db n hw, deletePhoto_eq env host2 c _ n hw]
      simp only
      rw [map_deleted_of_no_live Photo.toModel (fun r m => { r with toModel := m })
        (fun _ => rfl) host2.Now n]
      intro r1 hr1 hl
      rw [List.mem_map] at hr1
      obtain ⟨r, _, hr⟩ := hr1
      rw [← hr] at hl ⊢
      exact deleted_not_live host.Now n r.toModel hl

/-- C10 at concrete requests: alice is deleted twice, at clock readings 10 and
20; both calls get 200 and the second leaves the store as the first left it. -/
theorem delete_idempotent_witness :
    (deleteUser demo hostK delUser dbAlice).reply.status = StatusOK ∧
      (deleteUser demo hostK delUser dbAlice).db ≠ dbAlice ∧
      deleteUser demo hostK20 delUser (deleteUser demo hostK delUser dbAlice).db =
        ⟨(deleteUser demo hostK delUser dbAlice).db,
          ⟨StatusOK, .message "User deleted successfully"⟩, [.DeleteUser "1"]⟩ :=
  ⟨((delete_idempotent demo hostK hostK20 delUser dbAlice).1 ⟨_, rfl⟩).1, by decide,
    ((delete_idempotent demo hostK hostK20 delUser dbAlice).1 ⟨_, rfl⟩).2.2⟩

/-! ## Update by id -/

/-- With the path parameter read as `n` and a column to write, the rows an
`Updates` selects are the rows it reaches. -/
theorem selected_iff_reaches (env : Env) (id : String) (n : Nat) (v r : Model)
    (hw : env.whereID id = some n) :
    Model.selected n v r = true ↔ Reaches env id true v r := by
  simp only [Model.selected, Bool.and_eq_true, Bool.or_eq_true, decide_eq_true_eq, Reaches, hw,
    Option.some.injEq, true_and]
  constructor
  · rintro ⟨⟨hl, hid⟩, hv⟩
    exact ⟨hl, hid.symm, hv.imp (fun h => h) Eq.symm⟩
  · rintro ⟨hl, hid, hv⟩
    exact ⟨⟨hl, hid.symm⟩, hv.imp (fun h => h) Eq.symm⟩

/-- What a successful `Updates` on photos did: nothing, or the field merge on
the selected rows. -/
theorem UpdatesPhoto_ok_inv (env : Env) (now : Time) (db db1 : DB) (id : String) (v : Photo)
    (h : db.UpdatesPhoto env now id v = .ok db1) :
    (v.hasUpdate = false ∧ db1 = db) ∨
      ∃ n, v.hasUpdate = true ∧ env.whereID id = some n ∧
        db1.photos.rows = db.photos.rows.map
          (fun r => if Model.selected n v.toModel r.toModel then Photo.updated now v r else r) := by
  unfold DB.UpdatesPhoto at h
  by_cases hu : v.hasUpdate = true
  · right
    simp only [hu, Bool.not_true, Bool.false_eq_true, ↓reduceIte] at h
    cases hw : env.whereID id with
    | none => simp [hw] at h
    | some n =>
      simp only [hw, Except.ok.injEq] at h
      exact ⟨n, hu, rfl, by rw [← h]⟩
  · left
    simp only [Bool.not_eq_true] at hu
    simp only [hu, Bool.not_false, ↓reduceIte, Except.ok.injEq] at h
    exact ⟨hu, h.symm⟩

/-- A successful `Updates` on users leaves the auto-increment value alone, and
the photos table too when the value carries no association. -/
theorem UpdatesUser_frame (env : Env) (now : Time) (db db1 : DB) (id : String) (v : user)
    (h : db.UpdatesUser env now id v = .ok db1) :
    db1.users.nextID = db.users.nextID ∧ (v.Photo = [] → db1.photos = db.photos) := by
  unfold DB.UpdatesUser at h
  by_cases hu : v.hasUpdate = true
  · simp only [hu, Bool.not_true, Bool.false_eq_true, ↓reduceIte] at h
    cases hw : env.whereID id with
    | none => simp [hw] at h
    | some n =>
      simp only [hw] at h
      by_cases hph : v.Photo = []
      · simp only [hph, ↓reduceIte] at h
        split at h
        · simp at h
        · simp only [Except.ok.injEq] at h
          rw [← h]
          exact ⟨rfl, fun _ => rfl⟩
      · simp only [hph, ↓reduceIte] at h
        split at h
        · simp at h
        · split at h
          · simp at h
          · simp only [Except.ok.injEq] at h
            rw [← h]
            exact ⟨rfl, fun hp => absurd hp hph⟩
  · simp only [Bool.not_eq_true] at hu
    simp only [hu, Bool.not_false, ↓reduceIte, Except.ok.injEq] at h
    rw [← h]
    exact ⟨rfl, fun _ => rfl⟩

/-- A successful `Updates` on photos leaves the auto-increment value alone. -/
theorem UpdatesPhoto_nextID (env : Env) (now : Time) (db db1 : DB) (id : String) (v : Photo)
    (h : db.UpdatesPhoto env now id v = .ok db1) : db1.photos.nextID = db.photos.nextID := by
  unfold DB.UpdatesPhoto at h
  split at h
  · simp only [Except.ok.injEq] at h
    rw [← h]
  · split at h
    · simp at h
    · simp only [Except.ok.injEq] at h
      rw [← h]

/-- An update answered with 200 went through the store call. -/
theorem updateUser_ok_inv (env : Env) (host : Host) (c : Request) (db : DB) (v : user)
    (hbind : env.bindUser c.Body = .ok v)
    (hok : (updateUser env host c db).reply.status = StatusOK) :
    ∃ db1, db.UpdatesUser env host.Now c.Param v = .ok db1 ∧
      (updateUser env host c db).db = db1 := by
  unfold updateUser at hok ⊢
  simp only [hbind] at hok ⊢
  cases hu : db.UpdatesUser env host.Now c.Param v with
  | error e => simp [hu] at hok
  | ok db1 => exact ⟨db1, rfl, rfl⟩

/-- A photo update answered with 200 went through the store call. -/
theorem updatePhoto_ok_inv (env : Env) (host : Host) (c : Request) (db : DB) (v : Photo)
    (hbind : env.bindPhoto c.Body = .ok v)
    (hok : (updatePhoto env host c db).reply.status = StatusOK) :
    ∃ db1, db.UpdatesPhoto env host.Now c.Param v = .ok db1 ∧
      (updatePhoto env host c db).db = db1 := by
  unfold updatePhoto at hok ⊢
  simp only [hbind] at hok ⊢
  cases hu : db.UpdatesPhoto env host.Now c.Param v with
  | error e => simp [hu] at hok
  | ok db1 => exact ⟨db1, rfl, rfl⟩

/-- C9 as stated fails in three ways, each answered with 200: the update
timestamp of the row changes although the payload leaves it zero; a
soft-deleted row with the id is not overwritten; and a payload that sets a key
of its own, other than the id of the path, overwrites nothing. -/
theorem updates_not_plain_merge :
    (demo.bindUser putUsername.Body = .ok { Username := "carol" } ∧
        dbAlice.users.rows.map (fun r => (r.ID, r.Username, r.UpdatedAt)) = [(1, "alice", 10)] ∧
        (updateUser demo hostK20 putUsername dbAlice).reply.status = StatusOK ∧
        (updateUser demo hostK20 putUsername dbAlice).db.users.rows.map
          (fun r => (r.ID, r.Username, r.UpdatedAt)) = [(1, "carol", 20)]) ∧
      ((deleteUser demo hostK delUser dbAlice).db.users.rows.map
          (fun r => (r.ID, r.Username, r.DeletedAt)) = [(1, "alice", some 10)] ∧
        (updateUser demo hostK20 putUsername
          (deleteUser demo hostK delUser dbAlice).db).reply.status = StatusOK ∧
        (updateUser demo hostK20 putUsername (deleteUser demo hostK delUser dbAlice).db).db
          = (deleteUser demo hostK delUser dbAlice).db) ∧
      (demo.bindUser putUsernameID.Body = .ok { ID := 7, Username := "carol" } ∧
        (updateUser demo hostK20 putUsernameID dbAlice).reply.status = StatusOK ∧
        (updateUser demo hostK20 putUsernameID dbAlice).db = dbAlice) :=
  ⟨⟨rfl, by decide, by decide, by decide⟩, ⟨by decide, by decide, by decide⟩,
    ⟨rfl, by decide, by decide⟩⟩

/-- C9, amended: when `updateUser` answers 200 and the payload sets no column
field, the store is unchanged. Otherwise the users table keeps its rows in
place, and a row the statement reaches (a live row whose key is the one the
store reads from the path id, and the payload's own key when it sets one) has
every column whose payload field is non-zero overwritten with the payload
value and every column whose payload field is zero kept, except `updated_at`,
which becomes the time of the request; every other row of the table, so every
row with a different id and every soft-deleted row, is unchanged, and the
photos table is unchanged when the payload carries no `Photo` list. The same
holds for `updatePhoto` on the photos table, which leaves the users table
unchanged. -/
theorem updates_field_merge (env : Env) (host : Host) (c : Request) (db : DB) :
    (∀ v, env.bindUser c.Body = .ok v → (updateUser env host c db).reply.status = StatusOK →
        (v.hasUpdate = false → (updateUser env host c db).db = db) ∧
        (updateUser env host c db).db.users.nextID = db.users.nextID ∧
        (v.Photo = [] → (updateUser env host c db).db.photos = db.photos) ∧
        (updateUser env host c db).db.users.rows.length = db.users.rows.length ∧
        ∀ (i : Nat) (r : user), db.users.rows[i]? = some r →
          ∃ r1, (updateUser env host c db).db.users.rows[i]? = some r1 ∧
            (¬ Reaches env c.Param v.hasUpdate v.toModel r.toModel → r1 = r) ∧
            (Reaches env c.Param v.hasUpdate v.toModel r.toModel →
              r1.ID = (if v.ID = 0 then r.ID else v.ID) ∧
              r1.CreatedAt = (if v.CreatedAt = 0 then r.CreatedAt else v.CreatedAt) ∧
              r1.UpdatedAt = host.Now ∧
              r1.DeletedAt = (if v.DeletedAt = none then r.DeletedAt else v.DeletedAt) ∧
              r1.Username = (if v.Username = "" then r.Username else v.Username) ∧
              r1.Email = (if v.Email = "" then r.Email else v.Email) ∧
              r1.Password = (if v.Password = "" then r.Password else v.Password) ∧
              r1.Photo = r.Photo)) ∧
      (∀ v, env.bindPhoto c.Body = .ok v → (updatePhoto env host c db).reply.status = StatusOK →
        (v.hasUpdate = false → (updatePhoto env host c db).db = db) ∧
        (updatePhoto env host c db).db.photos.nextID = db.photos.nextID ∧
        (updatePhoto env host c db).db.users = db.users ∧
        (updatePhoto env host c db).db.photos.rows.length = db.photos.rows.length ∧
        ∀ (i : Nat) (r : Photo), db.photos.rows[i]? = some r →
          ∃ r1, (updatePhoto env host c db).db.photos.rows[i]? = some r1 ∧
            (¬ Reaches env c.Param v.hasUpdate v.toModel r.toModel → r1 = r) ∧
            (Reaches env c.Param v.hasUpdate v.toModel r.toModel →
              r1.ID = (if v.ID = 0 then r.ID else v.ID) ∧
              r1.CreatedAt = (if v.CreatedAt = 0 then r.CreatedAt else v.CreatedAt) ∧
              r1.UpdatedAt = host.Now ∧
              r1.DeletedAt = (if v.DeletedAt = none then r.DeletedAt else v.DeletedAt) ∧
              r1.Title = (if v.Title = "" then r.Title else v.Title) ∧
              r1.Caption = (if v.Caption = "" then r.Caption else v.Caption) ∧
              r1.PhotoURL = (if v.PhotoURL = "" then r.PhotoURL else v.PhotoURL) ∧
              r1.UserID = (if v.UserID = 0 then r.UserID else v.UserID))) := by
  constructor
  · intro v hbind hok
    obtain ⟨db1, hu, hdb⟩ := updateUser_ok_inv env host c db v hbind hok
    rw [hdb]
    obtain ⟨hnext, hphotos⟩ := UpdatesUser_frame env host.Now db db1 c.Param v hu
    rcases UpdatesUser_ok_inv env host.Now db db1 c.Param v hu with
      ⟨hno, heq⟩ | ⟨n, hyes, hw, hrows, _⟩
    · refine ⟨fun _ => heq, hnext, hphotos, by rw [heq], ?_⟩
      rw [heq]
      refine fun i r hr => ⟨r, hr, fun _ => rfl, fun hreach => ?_⟩
      rw [hno] at hreach
      exact absurd hreach.1 (by simp)
    · refine ⟨fun hf => ?_, hnext, hphotos, by rw [hrows]; exact List.length_map _ _, ?_⟩
      · rw [hyes] at hf
        exact absurd hf (by simp)
      rw [hrows, hyes]
      intro i r hr
      rw [List.getElem?_map, hr]
      refine ⟨_, rfl, fun hnr => ?_, fun hreach => ?_⟩
      · have hsel : ¬ Model.selected n v.toModel r.toModel = true :=
          fun hs => hnr ((selected_iff_reaches env c.Param n _ _ hw).1 hs)
        simp [hsel]
      · have hsel := (selected_iff_reaches env c.Param n _ _ hw).2 hreach
        simp only [hsel, ↓reduceIte]
        refine ⟨rfl, rfl, rfl, ?_, rfl, rfl, rfl, rfl⟩
        cases hd : v.DeletedAt <;> simp [user.updated, Model.updated, hd]
  · intro v hbind hok
    have husers := updatePhoto_users env host c db
    obtain ⟨db1, hu, hdb⟩ := updatePhoto_ok_inv env host c db v hbind hok
    rw [hdb] at husers ⊢
    have hnext := UpdatesPhoto_nextID env host.Now db db1 c.Param v hu
    rcases UpdatesPhoto_ok_inv env host.Now db db1 c.Param v hu with
      ⟨hno, heq⟩ | ⟨n, hyes, hw, hrows⟩
    · refine ⟨fun _ => heq, hnext, husers, by rw [heq], ?_⟩
      rw [heq]
      refine fun i r hr => ⟨r, hr, fun _ => rfl, fun hreach => ?_⟩
      rw [hno] at hreach
      exact absurd hreach.1 (by simp)
    · refine ⟨fun hf => ?_, hnext, husers, by rw [hrows]; exact List.length_map _ _, ?_⟩
      · rw [hyes] at hf
        exact absurd hf (by simp)
      rw [hrows, hyes]
      intro i r hr
      rw [List.getElem?_map, hr]
      refine ⟨_, rfl, fun hnr => ?_, fun hreach => ?_⟩
      · have hsel : ¬ Model.selected n v.toModel r.toModel = true :=
          fun hs => hnr ((selected_iff_reaches env c.Param n _ _ hw).1 hs)
        simp [hsel]
      · have hsel := (selected_iff_reaches env c.Param n _ _ hw).2 hreach
        simp only [hsel, ↓reduceIte]
        refine ⟨rfl, rfl, rfl, ?_, rfl, rfl, rfl, rfl⟩
        cases hd : v.DeletedAt <;> simp [Photo.updated, Model.updated, hd]

/-- C9, amended, at concrete requests: alice's username is overwritten, her
email is kept and her update timestamp becomes the time of the request, while
the photos table stays as it was; an empty payload changes nothing. -/
theorem updates_field_merge_witness :
    (∃ r1, (updateUser demo hostK20 putUsername dbAlice).db.users.rows[0]? = some r1 ∧
      r1.Username = "carol" ∧ r1.Email = "alice@example.com" ∧ r1.UpdatedAt = 20) ∧
      (updateUser demo hostK20 putUsername dbAlice).db.photos = dbAlice.photos ∧
      (updateUser demo hostK20 putEmpty dbAlice).db = dbAlice := by
  have hall := (updates_field_merge demo hostK20 putUsername dbAlice).1 { Username := "carol" }
    rfl (by decide)
  have hempty := (updates_field_merge demo hostK20 putEmpty dbAlice).1 {} rfl (by decide)
  refine ⟨?_, hall.2.2.1 rfl, hempty.1 rfl⟩
  obtain ⟨r1, h1, _, h3⟩ := hall.2.2.2.2 0
      { ID := 1, CreatedAt := 10, UpdatedAt := 10, Username := "alice",
        Email := "alice@example.com", Password := "$2a$10$secret1" } (by decide)
  obtain ⟨_, _, h4, _, h5, h6, _⟩ := h3 ⟨rfl, rfl, rfl, Or.inl rfl⟩
  exact ⟨r1, h1, h5, h6, h4⟩

/-! ## Passwords in the store -/

/-- The handler `updateUser` never calls the hasher. -/
theorem updateUser_no_hash (env : Env) (host : Host) (c : Request) (db : DB) (p : String) :
    Call.GenerateFromPassword p ∉ (updateUser env host c db).calls := by
  unfold updateUser
  cases env.bindUser c.Body with
  | error e => simp
  | ok v =>
    simp only
    cases db.UpdatesUser env host.Now c.Param v <;> simp

/-- C2 (evaluation of the code): on the empty store alice registers and then
`PUT /user/1` carries the body with the password `plain`. Both requests are
answered with 200, the update reaches the store without a call to the hasher,
and the row then holds `plain`, the plaintext the caller supplied, which is no
output of the hasher; her login with the registered password now gets 401. -/
theorem updateUser_stores_plaintext :
    (serve demo hostK regAlice DB.empty).reply.status = StatusOK ∧
      demo.bindUser putPassword.Body = .ok { Password := "plain" } ∧
      (serve demo hostK20 putPassword (serve demo hostK regAlice DB.empty).db).reply.status
        = StatusOK ∧
      (serve demo hostK20 putPassword (serve demo hostK regAlice DB.empty).db).calls
        = [.UpdatesUser "1" { Password := "plain" }] ∧
      (serveAll demo [(hostK, regAlice), (hostK20, putPassword)] DB.empty).users.rows.map
        (fun r => (r.ID, r.Email, r.Password)) = [(1, "alice@example.com", "plain")] ∧
      (∀ rand p, demo.GenerateFromPassword rand p ≠ .ok "plain") ∧
      (loginUser demo hostK20 loginAlice
        (serveAll demo [(hostK, regAlice), (hostK20, putPassword)] DB.empty)).reply.status
        = StatusUnauthorized := by
  refine ⟨by decide, rfl, by decide, by decide, by decide, ?_, by decide⟩
  intro rand p h
  simp only [demo, Except.ok.injEq] at h
  have hd := congrArg String.data h
  simp [String.data_append] at hd

end Api
